import Mathlib

/-! Steal-Brainrot: the per-frame update of `game.js`

A shallow embedding of `src/game.js`.  JavaScript numbers are modelled by an
arbitrary linearly ordered field `α` with a floor function (exact arithmetic;
`ℚ` for evaluation, `ℝ` for statements about Euclidean distance).  The
functions of the JavaScript `Math` object that the program calls
(`Math.sqrt`, `Math.sin`, `Math.PI`, `Math.random`) are not part of the
repository and are passed in as a `Host`.  `Math.random()` is a stream of draws
indexed by the number of calls made so far, which the game state counts in
`draws`.

JavaScript compares objects by identity (`b !== brainrot`).  Collectibles and
enemies therefore carry a field `ref`, the allocation number of the object,
taken from the counter `nextRef` of the game state; `!==` is inequality of
`ref`.  Every object is allocated once and pushed once, so the arrays of a
running game hold pairwise different `ref`s.

The model has no `NaN` and no infinities.  The only divisions of the program are
the two of `Enemy.update`; `Enemy.updateChecked` is that method with the
divisions checked by `jsDiv`, and it is shown to return what `Enemy.update`
returns, never a failure.

Rendering, DOM updates (`updateUI`, `render`) and the wiring of keyboard events
only write to the page and are left out; `gameOver` (an `alert` followed by
`location.reload()`) is recorded in the counter `gameOverCalls`.
-/

namespace StealBrainrot

/-- The parts of the JavaScript runtime the game reads. -/
structure Host (α : Type) where
  /-- The function `Math.sqrt`. -/
  sqrt : α → α
  /-- The function `Math.sin`. -/
  sin : α → α
  /-- The constant `Math.PI`. -/
  pi : α
  /-- The value returned by the call of `Math.random()` after `n` earlier calls. -/
  random : Nat → α

/-- The entries of `this.keys` that `update` reads (`undefined` is `false`). -/
structure Keys where
  w : Bool
  s : Bool
  a : Bool
  d : Bool
  arrowup : Bool
  arrowdown : Bool
  arrowleft : Bool
  arrowright : Bool
deriving DecidableEq, Repr

/-- No key is held: `this.keys = {}`. -/
def Keys.none : Keys := ⟨false, false, false, false, false, false, false, false⟩

/-- What `checkCollision` reads of an object: centre and radius. -/
structure Circle (α : Type) where
  x : α
  y : α
  radius : α
deriving DecidableEq, Repr

/-! ## Player -/

structure Player (α : Type) where
  x : α
  y : α
  radius : α
  speed : α
  color : String
deriving DecidableEq, Repr

section
variable {α : Type} [LinearOrderedField α]

/-- The `Player` constructor. -/
def Player.new (x y : α) : Player α :=
  { x := x, y := y, radius := 15, speed := 5, color := "#00ff88" }

def Player.moveUp (p : Player α) : Player α := { p with y := p.y - p.speed }
def Player.moveDown (p : Player α) : Player α := { p with y := p.y + p.speed }
def Player.moveLeft (p : Player α) : Player α := { p with x := p.x - p.speed }
def Player.moveRight (p : Player α) : Player α := { p with x := p.x + p.speed }

/-- The method `Player.update`: keep the player within bounds. -/
def Player.update (canvasWidth canvasHeight : α) (p : Player α) : Player α :=
  { p with
    x := max p.radius (min (canvasWidth - p.radius) p.x)
    y := max p.radius (min (canvasHeight - p.radius) p.y) }

def Player.circle (p : Player α) : Circle α := ⟨p.x, p.y, p.radius⟩

/-! ## Brainrot (the collectible) -/

inductive Rarity where
  | common | uncommon | rare | epic | legendary | mythic
deriving DecidableEq, Repr

/-- One row of `rarityData`. -/
structure RarityData (α : Type) where
  color : String
  points : α
  glow : Bool

/-- The table `rarityData` of `setRarityProperties`. -/
def rarityData : Rarity → RarityData α
  | .common => ⟨"#9e9e9e", 10, false⟩
  | .uncommon => ⟨"#4caf50", 25, false⟩
  | .rare => ⟨"#2196f3", 50, true⟩
  | .epic => ⟨"#9c27b0", 100, true⟩
  | .legendary => ⟨"#ff9800", 200, true⟩
  | .mythic => ⟨"#f44336", 500, true⟩

structure Brainrot (α : Type) where
  /-- Object identity. -/
  ref : Nat
  x : α
  y : α
  radius : α
  bobOffset : α
  bobSpeed : α
  originalY : α
  rarity : Rarity
  color : String
  points : α
  hasGlow : Bool
  /-- In JavaScript `undefined` (falsy) unless `mutate` ran. -/
  isMutated : Bool
  /-- In JavaScript `undefined` unless `mutate` ran. -/
  mutationHue : Option α
deriving DecidableEq, Repr

/-- The method `determineRarity`, on the value `rand` drawn by `Math.random()`. -/
def Brainrot.determineRarity (rand : α) : Rarity :=
  if rand < 0.4 then .common
  else if rand < 0.65 then .uncommon
  else if rand < 0.8 then .rare
  else if rand < 0.92 then .epic
  else if rand < 0.98 then .legendary
  else .mythic

/-- The method `setRarityProperties`. -/
def Brainrot.setRarityProperties (b : Brainrot α) : Brainrot α :=
  let data : RarityData α := rarityData b.rarity
  { b with color := data.color, points := data.points, hasGlow := data.glow }

/-- The method `mutate`. -/
def Brainrot.mutate (b : Brainrot α) : Brainrot α :=
  { b with
    isMutated := true
    radius := b.radius * 1.5
    points := b.points * 2
    mutationHue := some 0 }

/-- The `Brainrot` constructor.  `bobDraw`, `rarityDraw` and `mutationDraw` are
the three values of `Math.random()` it consumes, in that order; the fields that
`setRarityProperties` assigns start out as placeholders. -/
def Brainrot.new (H : Host α) (ref : Nat) (x y bobDraw rarityDraw mutationDraw : α) :
    Brainrot α :=
  let b0 : Brainrot α :=
    { ref := ref, x := x, y := y, radius := 12
      bobOffset := bobDraw * H.pi * 2, bobSpeed := 0.003, originalY := y
      rarity := Brainrot.determineRarity rarityDraw
      color := "", points := 0, hasGlow := false
      isMutated := false, mutationHue := none }
  let b1 := b0.setRarityProperties
  if mutationDraw < 0.1 then b1.mutate else b1

/-- The method `Brainrot.update`. -/
def Brainrot.update (H : Host α) (deltaTime : α) (b : Brainrot α) : Brainrot α :=
  let bobOffset := b.bobOffset + b.bobSpeed * deltaTime
  let b1 : Brainrot α :=
    { b with bobOffset := bobOffset, y := b.originalY + H.sin bobOffset * 5 }
  if b1.isMutated then
    { b1 with
      mutationHue := b1.mutationHue.map fun hue =>
        let hue1 := hue + 0.01
        if hue1 > 360 then 0 else hue1 }
  else b1

def Brainrot.circle (b : Brainrot α) : Circle α := ⟨b.x, b.y, b.radius⟩

/-! ## Enemy -/

/-- An enemy.  Its field `target` always refers to the player object of the
game, so the methods take the player as an argument. -/
structure Enemy (α : Type) where
  /-- Object identity. -/
  ref : Nat
  x : α
  y : α
  radius : α
  speed : α
  color : String
  damage : α
  angle : α
deriving DecidableEq, Repr

/-- The `Enemy` constructor. -/
def Enemy.new (ref : Nat) (x y : α) : Enemy α :=
  { ref := ref, x := x, y := y, radius := 10, speed := 2, color := "#ff4444"
    damage := 10, angle := 0 }

/-- The method `Enemy.update`: move towards the player.  `deltaTime` is not
used by the source either. -/
def Enemy.update (H : Host α) (target : Player α) (_deltaTime : α) (e : Enemy α) :
    Enemy α :=
  let dx := target.x - e.x
  let dy := target.y - e.y
  let distance := H.sqrt (dx * dx + dy * dy)
  let e1 : Enemy α :=
    if distance > 0 then
      { e with x := e.x + (dx / distance) * e.speed, y := e.y + (dy / distance) * e.speed }
    else e
  { e1 with angle := e1.angle + 0.1 }

/-- JavaScript's `a / b` as a number of the model.  For `b = 0` JavaScript gives
`NaN` or an infinity, for which the model has no number: `none`.  (Lean's own
`a / 0` is `0`, which would hide a division by zero.) -/
def jsDiv (a b : α) : Option α :=
  if b = 0 then none else some (a / b)

/-- The method `Enemy.update` with its two divisions checked: the result is
`none` as soon as the method evaluates a division by zero. -/
def Enemy.updateChecked (H : Host α) (target : Player α) (_deltaTime : α) (e : Enemy α) :
    Option (Enemy α) :=
  let dx := target.x - e.x
  let dy := target.y - e.y
  let distance := H.sqrt (dx * dx + dy * dy)
  let moved : Option (Enemy α) :=
    if distance > 0 then
      (jsDiv dx distance).bind fun ux =>
        (jsDiv dy distance).map fun uy =>
          { e with x := e.x + ux * e.speed, y := e.y + uy * e.speed }
    else some e
  moved.map fun e1 => { e1 with angle := e1.angle + 0.1 }

def Enemy.circle (e : Enemy α) : Circle α := ⟨e.x, e.y, e.radius⟩

/-! ## Particle -/

structure Particle (α : Type) where
  x : α
  y : α
  vx : α
  vy : α
  color : String
  life : α
  decay : α
  radius : α
deriving DecidableEq, Repr

/-- The `Particle` constructor; `r0`, `r1`, `r2` are its three random draws. -/
def Particle.new (x y : α) (color : String) (r0 r1 r2 : α) : Particle α :=
  { x := x, y := y, vx := (r0 - 0.5) * 4, vy := (r1 - 0.5) * 4, color := color
    life := 1, decay := 0.02, radius := r2 * 3 + 1 }

/-- The method `Particle.update`; `deltaTime` is not used by the source either. -/
def Particle.update (_deltaTime : α) (p : Particle α) : Particle α :=
  { p with x := p.x + p.vx, y := p.y + p.vy, life := p.life - p.decay
           radius := p.radius * 0.98 }

end

/-! ## Game -/

structure Game (α : Type) where
  width : α
  height : α
  player : Player α
  brainrots : List (Brainrot α)
  enemies : List (Enemy α)
  particles : List (Particle α)
  score : α
  health : α
  collected : α
  keys : Keys
  lastTime : α
  brainrotSpawnTimer : α
  enemySpawnTimer : α
  /-- Number of calls of `Math.random()` so far. -/
  draws : Nat
  /-- Number of objects allocated so far. -/
  nextRef : Nat
  /-- Number of calls of `gameOver()` so far. -/
  gameOverCalls : Nat
deriving DecidableEq, Repr

section
variable {α : Type} [LinearOrderedField α]

/-- The state the `Game` constructor builds for a canvas of the given size,
before it calls `gameLoop()`. -/
def Game.new (width height : α) : Game α :=
  { width := width, height := height
    player := Player.new (width / 2) (height / 2)
    brainrots := [], enemies := [], particles := []
    score := 0, health := 100, collected := 0
    keys := Keys.none, lastTime := 0
    brainrotSpawnTimer := 0, enemySpawnTimer := 0
    draws := 0, nextRef := 0, gameOverCalls := 0 }

/-- The method `spawnBrainrot`. -/
def Game.spawnBrainrot (H : Host α) (g : Game α) : Game α :=
  let x := H.random g.draws * g.width
  let y := H.random (g.draws + 1) * g.height
  let brainrot := Brainrot.new H g.nextRef x y
    (H.random (g.draws + 2)) (H.random (g.draws + 3)) (H.random (g.draws + 4))
  { g with brainrots := g.brainrots ++ [brainrot], draws := g.draws + 5
           nextRef := g.nextRef + 1 }

/-- The coordinates `spawnEnemy` picks: `sideDraw` and `posDraw` are the two
values of `Math.random()`.  When no `case` matches (impossible for a draw in
`[0,1)`) JavaScript leaves `x` and `y` undefined; the model writes `0`. -/
def Game.enemySpawnPoint [FloorRing α] (width height sideDraw posDraw : α) : α × α :=
  let side : Int := ⌊sideDraw * 4⌋
  if side = 0 then (-30, posDraw * height)
  else if side = 1 then (width + 30, posDraw * height)
  else if side = 2 then (posDraw * width, -30)
  else if side = 3 then (posDraw * width, height + 30)
  else (0, 0)

/-- The method `spawnEnemy`. -/
def Game.spawnEnemy [FloorRing α] (H : Host α) (g : Game α) : Game α :=
  let xy := Game.enemySpawnPoint g.width g.height (H.random g.draws) (H.random (g.draws + 1))
  let enemy := Enemy.new g.nextRef xy.1 xy.2
  { g with enemies := g.enemies ++ [enemy], draws := g.draws + 2
           nextRef := g.nextRef + 1 }

/-- The method `checkCollision`. -/
def Game.checkCollision (H : Host α) (obj1 obj2 : Circle α) : Bool :=
  let dx := obj1.x - obj2.x
  let dy := obj1.y - obj2.y
  let distance := H.sqrt (dx * dx + dy * dy)
  decide (distance < obj1.radius + obj2.radius)

/-- The five particles `collectBrainrot` pushes when `draws` values of
`Math.random()` have been consumed before. -/
def Game.collectionParticles (H : Host α) (draws : Nat) (brainrot : Brainrot α) :
    List (Particle α) :=
  (List.range 5).map fun i =>
    Particle.new brainrot.x brainrot.y brainrot.color
      (H.random (draws + 3 * i)) (H.random (draws + 3 * i + 1)) (H.random (draws + 3 * i + 2))

/-- The method `collectBrainrot`. -/
def Game.collectBrainrot (H : Host α) (brainrot : Brainrot α) (g : Game α) : Game α :=
  { g with
    score := g.score + brainrot.points
    collected := g.collected + 1
    particles := g.particles ++ Game.collectionParticles H g.draws brainrot
    draws := g.draws + 15 }

/-- The method `takeDamage`. -/
def Game.takeDamage (damage : α) (g : Game α) : Game α :=
  let health := g.health - damage
  { g with health := if health < 0 then 0 else health }

/-- The method `gameOver`. -/
def Game.gameOver (g : Game α) : Game α :=
  { g with gameOverCalls := g.gameOverCalls + 1 }

/-- Lines 60-66 of `update`: handle input, then clamp the player. -/
def Game.movePlayer (g : Game α) : Game α :=
  let p0 := g.player
  let p1 := if g.keys.w || g.keys.arrowup then p0.moveUp else p0
  let p2 := if g.keys.s || g.keys.arrowdown then p1.moveDown else p1
  let p3 := if g.keys.a || g.keys.arrowleft then p2.moveLeft else p2
  let p4 := if g.keys.d || g.keys.arrowright then p3.moveRight else p3
  { g with player := p4.update g.width g.height }

/-- Lines 68-73 of `update`: the collectible spawn timer. -/
def Game.tickBrainrotTimer (H : Host α) (deltaTime : α) (g : Game α) : Game α :=
  let g1 := { g with brainrotSpawnTimer := g.brainrotSpawnTimer + deltaTime }
  if g1.brainrotSpawnTimer > 2000 then
    { g1.spawnBrainrot H with brainrotSpawnTimer := 0 }
  else g1

/-- Lines 75-80 of `update`: the enemy spawn timer. -/
def Game.tickEnemyTimer [FloorRing α] (H : Host α) (deltaTime : α) (g : Game α) : Game α :=
  let g1 := { g with enemySpawnTimer := g.enemySpawnTimer + deltaTime }
  if g1.enemySpawnTimer > 3000 then
    { g1.spawnEnemy H with enemySpawnTimer := 0 }
  else g1

/-- The body of the `forEach` over the collectibles (lines 84-90), run for the
object `brainrot`.  The object is mutated in place, which every array holding
it sees; `filter` builds a new array without the object. -/
def Game.visitBrainrot (H : Host α) (deltaTime : α) (g : Game α) (brainrot : Brainrot α) :
    Game α :=
  let updated := brainrot.update H deltaTime
  let g1 := { g with
    brainrots := g.brainrots.map fun b => if b.ref = brainrot.ref then updated else b }
  if Game.checkCollision H g1.player.circle updated.circle then
    let g2 := g1.collectBrainrot H updated
    { g2 with brainrots := g2.brainrots.filter fun b => b.ref ≠ brainrot.ref }
  else g1

/-- Lines 82-91 of `update`: `forEach` walks the array that `this.brainrots`
held when the loop started, whatever is assigned to `this.brainrots` meanwhile. -/
def Game.updateBrainrots (H : Host α) (deltaTime : α) (g : Game α) : Game α :=
  g.brainrots.foldl (Game.visitBrainrot H deltaTime) g

/-- The body of the `forEach` over the enemies (lines 95-101). -/
def Game.visitEnemy (H : Host α) (deltaTime : α) (g : Game α) (enemy : Enemy α) : Game α :=
  let updated := enemy.update H g.player deltaTime
  let g1 := { g with
    enemies := g.enemies.map fun e => if e.ref = enemy.ref then updated else e }
  if Game.checkCollision H g1.player.circle updated.circle then
    let g2 := g1.takeDamage updated.damage
    { g2 with enemies := g2.enemies.filter fun e => e.ref ≠ enemy.ref }
  else g1

/-- Lines 93-102 of `update`. -/
def Game.updateEnemies (H : Host α) (deltaTime : α) (g : Game α) : Game α :=
  g.enemies.foldl (Game.visitEnemy H deltaTime) g

/-- Lines 104-108 of `update`: remove off-screen enemies. -/
def Game.removeOffscreen (g : Game α) : Game α :=
  { g with enemies := g.enemies.filter fun enemy =>
      decide (enemy.x > -50) && decide (enemy.x < g.width + 50) &&
      decide (enemy.y > -50) && decide (enemy.y < g.height + 50) }

/-- Lines 110-112 of `update`. -/
def Game.updateParticles (deltaTime : α) (g : Game α) : Game α :=
  { g with particles :=
      (g.particles.map (Particle.update deltaTime)).filter fun particle =>
        decide (particle.life > 0) }

/-- Lines 114-117 of `update`: check game over. -/
def Game.checkGameOver (g : Game α) : Game α :=
  if g.health ≤ 0 then g.gameOver else g

/-- The state in which the loop over the collectibles starts: lines 60-80 of
`update`. -/
def Game.beforeLoops [FloorRing α] (H : Host α) (deltaTime : α) (g : Game α) : Game α :=
  (g.movePlayer.tickBrainrotTimer H deltaTime).tickEnemyTimer H deltaTime

/-- The method `Game.update`. -/
def Game.update [FloorRing α] (H : Host α) (deltaTime : α) (g : Game α) : Game α :=
  ((((g.beforeLoops H deltaTime).updateBrainrots H deltaTime).updateEnemies H deltaTime
    ).removeOffscreen.updateParticles deltaTime).checkGameOver

/-- The method `gameLoop`, without `render` and the request for the next frame. -/
def Game.gameLoop [FloorRing α] (H : Host α) (currentTime : α) (g : Game α) : Game α :=
  let deltaTime := currentTime - g.lastTime
  Game.update H deltaTime { g with lastTime := currentTime }

/-- The whole `Game` constructor for a canvas of the given size: the fields,
then `this.gameLoop()` with the default `currentTime = 0`. -/
def Game.create [FloorRing α] (H : Host α) (width height : α) : Game α :=
  (Game.new width height).gameLoop H 0

/-- The event listeners: between two frames the held keys may change. -/
def Game.setKeys (keys : Keys) (g : Game α) : Game α := { g with keys := keys }

/-- The states a running game can be in: the constructor's state, then any
number of frames and keyboard events. -/
inductive Game.Reachable [FloorRing α] (H : Host α) : Game α → Prop
  | new (width height : α) : Game.Reachable H (Game.new width height)
  | update (deltaTime : α) (g : Game α) :
      Game.Reachable H g → Game.Reachable H (g.update H deltaTime)
  | setKeys (keys : Keys) (g : Game α) :
      Game.Reachable H g → Game.Reachable H (g.setKeys keys)

/-- A host over `ℚ` on which the model can be evaluated: the square root is
exact on squares of rationals (rounded down otherwise), the sine is the
polynomial `x - x^3/6`, and the random draws cycle through `0, 0.37, 0.74, ...`. -/
def Host.approx : Host ℚ where
  sqrt := Rat.sqrt
  sin := fun x => x - x ^ 3 / 6
  pi := 355 / 113
  random := fun n => ((37 * n % 100 : Nat) : ℚ) / 100

/-- The example of the specification: a world of 800 x 600 with the player at
(400,300) and one common collectible at (405,300) of radius 12, its bob phase
at 0; everything else as the constructor leaves it. -/
def Game.scenario : Game α :=
  { Game.new 800 600 with
    brainrots :=
      [{ ref := 0, x := 405, y := 300, radius := 12, bobOffset := 0, bobSpeed := 0.003
         originalY := 300, rarity := Rarity.common, color := "#9e9e9e", points := 10
         hasGlow := false, isMutated := false, mutationHue := none }]
    nextRef := 1 }

/-- A world of 800 x 600 with the player at (400,300) and three collectibles
with phase 0: a common one at (405,300), an uncommon one at (370,260) and a
rare one at (395,300); everything else as the constructor leaves it. -/
def Game.scenarioThree : Game α :=
  { Game.new 800 600 with
    brainrots :=
      [{ ref := 0, x := 405, y := 300, radius := 12, bobOffset := 0, bobSpeed := 0.003
         originalY := 300, rarity := Rarity.common, color := "#9e9e9e", points := 10
         hasGlow := false, isMutated := false, mutationHue := none },
       { ref := 1, x := 370, y := 260, radius := 12, bobOffset := 0, bobSpeed := 0.003
         originalY := 260, rarity := Rarity.uncommon, color := "#4caf50", points := 25
         hasGlow := false, isMutated := false, mutationHue := none },
       { ref := 2, x := 395, y := 300, radius := 12, bobOffset := 0, bobSpeed := 0.003
         originalY := 300, rarity := Rarity.rare, color := "#2196f3", points := 50
         hasGlow := true, isMutated := false, mutationHue := none }]
    nextRef := 3 }

/-! ## Vocabulary of the statements -/

/-- Whether the collectible `b`, once updated, overlaps the player `p`: the
test of line 87. -/
def Game.overlapsBrainrot (H : Host α) (deltaTime : α) (p : Player α) (b : Brainrot α) : Bool :=
  Game.checkCollision H p.circle (b.update H deltaTime).circle

/-- Whether the enemy `e`, once updated, overlaps the player `p`: the test of
line 98. -/
def Game.overlapsEnemy (H : Host α) (deltaTime : α) (p : Player α) (e : Enemy α) : Bool :=
  Game.checkCollision H p.circle (e.update H p deltaTime).circle

/-- The fields the loop over the collectibles leaves alone. -/
def Game.SameOutsideBrainrots (g g1 : Game α) : Prop :=
  g1.width = g.width ∧ g1.height = g.height ∧ g1.player = g.player ∧
  g1.enemies = g.enemies ∧ g1.health = g.health ∧ g1.keys = g.keys ∧
  g1.lastTime = g.lastTime ∧ g1.brainrotSpawnTimer = g.brainrotSpawnTimer ∧
  g1.enemySpawnTimer = g.enemySpawnTimer ∧ g1.nextRef = g.nextRef ∧
  g1.gameOverCalls = g.gameOverCalls

/-- The fields the loop over the enemies leaves alone. -/
def Game.SameOutsideEnemies (g g1 : Game α) : Prop :=
  g1.width = g.width ∧ g1.height = g.height ∧ g1.player = g.player ∧
  g1.brainrots = g.brainrots ∧ g1.particles = g.particles ∧ g1.score = g.score ∧
  g1.collected = g.collected ∧ g1.keys = g.keys ∧
  g1.lastTime = g.lastTime ∧ g1.brainrotSpawnTimer = g.brainrotSpawnTimer ∧
  g1.enemySpawnTimer = g.enemySpawnTimer ∧ g1.draws = g.draws ∧ g1.nextRef = g.nextRef ∧
  g1.gameOverCalls = g.gameOverCalls

/-- The collectibles that overlap the player in the call `update(deltaTime)`:
those in the array when the loop starts whose updated self passes the test of
line 87. -/
def Game.collectedNow [FloorRing α] (H : Host α) (deltaTime : α) (g : Game α) :
    List (Brainrot α) :=
  (g.beforeLoops H deltaTime).brainrots.filter
    (Game.overlapsBrainrot H deltaTime (g.beforeLoops H deltaTime).player)

/-- The collectibles of the array are pairwise different objects, allocated
before `nextRef`. -/
def Game.DistinctBrainrots (g : Game α) : Prop :=
  (g.brainrots.map Brainrot.ref).Nodup ∧ ∀ b ∈ g.brainrots, b.ref < g.nextRef

/-- The enemies of the array are pairwise different objects, allocated before
`nextRef`. -/
def Game.DistinctEnemies (g : Game α) : Prop :=
  (g.enemies.map Enemy.ref).Nodup ∧ ∀ e ∈ g.enemies, e.ref < g.nextRef

/-- The enemy has the constructor's speed and is at most 30 beyond the edges of
a world of the given size. -/
def Enemy.Near (width height : α) (e : Enemy α) : Prop :=
  e.speed = 2 ∧ -30 ≤ e.x ∧ e.x ≤ width + 30 ∧ -30 ≤ e.y ∧ e.y ≤ height + 30

/-- The state in which the off-screen filter of `update` runs: after lines
60-102. -/
def Game.afterLoops [FloorRing α] (H : Host α) (deltaTime : α) (g : Game α) : Game α :=
  ((g.beforeLoops H deltaTime).updateBrainrots H deltaTime).updateEnemies H deltaTime

/-- The player has the constructor's radius and every enemy is near the world. -/
def Game.EnemiesNear (g : Game α) : Prop :=
  g.player.radius = 15 ∧ ∀ e ∈ g.enemies, e.Near g.width g.height

/-- The centre of a circle as a point of the Euclidean plane. -/
def Circle.centre (c : Circle ℝ) : EuclideanSpace ℝ (Fin 2) :=
  ![c.x, c.y]

/-- The enemy `e` after `k` calls of its `update` while the player stays as `p`. -/
def Enemy.chase (H : Host α) (p : Player α) (deltaTime : α) (e : Enemy α) (k : Nat) : Enemy α :=
  (Enemy.update H p deltaTime)^[k] e

/-- The particle `p` after one call of its `update` for each frame of `dts`,
the list of the frames' `deltaTime`s. -/
def Particle.after (dts : List α) (p : Particle α) : Particle α :=
  dts.foldl (fun q dt => q.update dt) p

/-- What holds of every state of a running game: health within `[0,100]`,
every enemy with the constructor's damage, no collectible with negative points. -/
def Game.Inv (g : Game α) : Prop :=
  0 ≤ g.health ∧ g.health ≤ 100 ∧ (∀ e ∈ g.enemies, e.damage = 10) ∧
  (∀ b ∈ g.brainrots, 0 ≤ b.points)

end

/-! ## Theorems -/

section
variable {α : Type} [LinearOrderedField α]

/-! ### Loops -/

theorem foldl_invariant {β γ : Type} (P : β → Prop) (f : β → γ → β) (l : List γ)
    (step : ∀ s, ∀ c ∈ l, P s → P (f s c)) (s : β) (h : P s) : P (l.foldl f s) := by
  induction l generalizing s with
  | nil => exact h
  | cons c l ih =>
    rw [List.foldl_cons]
    exact ih (fun s c hc hs => step s c (List.mem_cons_of_mem _ hc) hs) _
      (step s c (List.mem_cons_self _ _) h)

theorem brainrot_update_points (H : Host α) (dt : α) (b : Brainrot α) :
    (b.update H dt).points = b.points := by
  unfold Brainrot.update; dsimp only; split <;> rfl

theorem brainrot_update_ref (H : Host α) (dt : α) (b : Brainrot α) :
    (b.update H dt).ref = b.ref := by
  unfold Brainrot.update; dsimp only; split <;> rfl

theorem enemy_update_damage (H : Host α) (p : Player α) (dt : α) (e : Enemy α) :
    (e.update H p dt).damage = e.damage := by
  unfold Enemy.update; dsimp only; split <;> rfl

theorem enemy_update_ref (H : Host α) (p : Player α) (dt : α) (e : Enemy α) :
    (e.update H p dt).ref = e.ref := by
  unfold Enemy.update; dsimp only; split <;> rfl

theorem Game.visitBrainrot_same (H : Host α) (dt : α) (g0 g : Game α) (b : Brainrot α)
    (h : Game.SameOutsideBrainrots g0 g) :
    Game.SameOutsideBrainrots g0 (g.visitBrainrot H dt b) := by
  unfold Game.visitBrainrot Game.collectBrainrot
  dsimp only
  split <;> exact h

theorem Game.updateBrainrots_same (H : Host α) (dt : α) (g : Game α) :
    Game.SameOutsideBrainrots g (g.updateBrainrots H dt) :=
  foldl_invariant (Game.SameOutsideBrainrots g) _ _
    (fun s c _ hs => Game.visitBrainrot_same H dt g s c hs) g
    ⟨rfl, rfl, rfl, rfl, rfl, rfl, rfl, rfl, rfl, rfl, rfl⟩

theorem Game.visitEnemy_same (H : Host α) (dt : α) (g0 g : Game α) (e : Enemy α)
    (h : Game.SameOutsideEnemies g0 g) :
    Game.SameOutsideEnemies g0 (g.visitEnemy H dt e) := by
  unfold Game.visitEnemy Game.takeDamage
  dsimp only
  split <;> exact h

theorem Game.updateEnemies_same (H : Host α) (dt : α) (g : Game α) :
    Game.SameOutsideEnemies g (g.updateEnemies H dt) :=
  foldl_invariant (Game.SameOutsideEnemies g) _ _
    (fun s c _ hs => Game.visitEnemy_same H dt g s c hs) g
    ⟨rfl, rfl, rfl, rfl, rfl, rfl, rfl, rfl, rfl, rfl, rfl, rfl, rfl, rfl⟩

/-- What the loop over the collectibles does to the counters: one collection
for every object of the walked array that overlaps the player after its update. -/
theorem Game.foldl_visitBrainrot_counters (H : Host α) (dt : α) (l : List (Brainrot α))
    (g : Game α) :
    (l.foldl (Game.visitBrainrot H dt) g).score =
        g.score + ((l.filter (Game.overlapsBrainrot H dt g.player)).map Brainrot.points).sum ∧
    (l.foldl (Game.visitBrainrot H dt) g).collected =
        g.collected + ((l.filter (Game.overlapsBrainrot H dt g.player)).length : α) ∧
    (l.foldl (Game.visitBrainrot H dt) g).draws =
        g.draws + 15 * (l.filter (Game.overlapsBrainrot H dt g.player)).length := by
  induction l generalizing g with
  | nil => simp
  | cons b l ih =>
    rw [List.foldl_cons]
    obtain ⟨h1, h2, h3⟩ := ih (g.visitBrainrot H dt b)
    have hp : (g.visitBrainrot H dt b).player = g.player :=
      (Game.visitBrainrot_same H dt g g b ⟨rfl, rfl, rfl, rfl, rfl, rfl, rfl, rfl, rfl, rfl, rfl⟩).2.2.1
    rw [h1, h2, h3, hp]
    by_cases hc : Game.overlapsBrainrot H dt g.player b = true
    · have hc1 : Game.checkCollision H g.player.circle (b.update H dt).circle = true := hc
      simp only [Game.visitBrainrot, hc1, if_true, Game.collectBrainrot, List.filter_cons, hc,
        List.map_cons, List.sum_cons, List.length_cons, brainrot_update_points]
      refine ⟨by ring, by push_cast; ring, by ring⟩
    · have hc1 : Game.checkCollision H g.player.circle (b.update H dt).circle = false := by
        simpa [Game.overlapsBrainrot] using hc
      simp [Game.visitBrainrot, hc1, List.filter_cons, hc]



/-! ### The array of collectibles after the loop -/

theorem map_replace_of_ref_ne {β : Type} (b u : Brainrot β) (l : List (Brainrot β))
    (h : ∀ c ∈ l, c.ref ≠ b.ref) :
    l.map (fun c => if c.ref = b.ref then u else c) = l := by
  induction l with
  | nil => rfl
  | cons c l ih =>
    rw [List.map_cons, if_neg (h c (List.mem_cons_self _ _)),
      ih (fun d hd => h d (List.mem_cons_of_mem _ hd))]

theorem filter_ref_ne_of_ref_ne {β : Type} (b : Brainrot β) (l : List (Brainrot β))
    (h : ∀ c ∈ l, c.ref ≠ b.ref) :
    l.filter (fun c => decide (c.ref ≠ b.ref)) = l := by
  rw [List.filter_eq_self]
  intro c hc
  simpa using h c hc

/-- One visit when the walked object sits in the array between objects of other
identities: the object is replaced by its updated self, and dropped when it
overlaps the player. -/
theorem Game.visitBrainrot_brainrots (H : Host α) (dt : α) (g : Game α) (b : Brainrot α)
    (done rest : List (Brainrot α)) (hg : g.brainrots = done ++ b :: rest)
    (hd : ∀ c ∈ done, c.ref ≠ b.ref) (hr : ∀ c ∈ rest, c.ref ≠ b.ref) :
    (g.visitBrainrot H dt b).brainrots =
      if Game.overlapsBrainrot H dt g.player b then done ++ rest
      else done ++ b.update H dt :: rest := by
  have hm : g.brainrots.map (fun c => if c.ref = b.ref then b.update H dt else c) =
      done ++ b.update H dt :: rest := by
    rw [hg, List.map_append, List.map_cons, map_replace_of_ref_ne b _ done hd,
      map_replace_of_ref_ne b _ rest hr, if_pos rfl]
  unfold Game.visitBrainrot Game.collectBrainrot Game.overlapsBrainrot
  dsimp only
  rw [hm]
  split
  · rw [List.filter_append, List.filter_cons, filter_ref_ne_of_ref_ne b done hd,
      filter_ref_ne_of_ref_ne b rest hr]
    simp [brainrot_update_ref]
  · rfl

/-- The array after the loop, when the walked objects have pairwise different
identities: the objects that do not overlap the player once updated, updated,
in their order. -/
theorem Game.foldl_visitBrainrot_brainrots (H : Host α) (dt : α) (l : List (Brainrot α)) :
    ∀ (g : Game α) (done : List (Brainrot α)), g.brainrots = done ++ l →
      ((done ++ l).map Brainrot.ref).Nodup →
      (l.foldl (Game.visitBrainrot H dt) g).brainrots =
        done ++ (l.filter fun b => !Game.overlapsBrainrot H dt g.player b).map
          (Brainrot.update H dt) := by
  induction l with
  | nil => intro g done hg _; simpa using hg
  | cons b l ih =>
    intro g done hg hn
    rw [List.map_append, List.map_cons, List.nodup_append] at hn
    obtain ⟨hn1, hn2, hn3⟩ := hn
    have hd : ∀ c ∈ done, c.ref ≠ b.ref := fun c hc he =>
      hn3 (List.mem_map_of_mem _ hc) (he ▸ List.mem_cons_self _ _)
    have hr : ∀ c ∈ l, c.ref ≠ b.ref := fun c hc he =>
      (List.nodup_cons.1 hn2).1 (he ▸ List.mem_map_of_mem _ hc)
    have hv := Game.visitBrainrot_brainrots H dt g b done l hg hd hr
    have hp : (g.visitBrainrot H dt b).player = g.player :=
      (Game.visitBrainrot_same H dt g g b
        ⟨rfl, rfl, rfl, rfl, rfl, rfl, rfl, rfl, rfl, rfl, rfl⟩).2.2.1
    rw [List.foldl_cons]
    by_cases hc : Game.overlapsBrainrot H dt g.player b = true
    · rw [if_pos hc] at hv
      rw [ih _ done hv, hp, List.filter_cons, hc]
      · rfl
      · rw [List.map_append, List.nodup_append]
        exact ⟨hn1, (List.nodup_cons.1 hn2).2, fun x hx hy => hn3 hx (List.mem_cons_of_mem _ hy)⟩
    · rw [if_neg hc] at hv
      have hc1 : Game.overlapsBrainrot H dt g.player b = false := by simpa using hc
      rw [ih _ (done ++ [b.update H dt]) (by rw [hv]; simp), hp, List.filter_cons, hc1]
      · simp
      · simp only [List.map_append, List.map_cons, List.map_nil, brainrot_update_ref,
          List.append_assoc, List.singleton_append]
        rw [List.nodup_append]
        exact ⟨hn1, hn2, hn3⟩

/-- The array of collectibles after `updateBrainrots`, for pairwise different
identities. -/
theorem Game.updateBrainrots_brainrots (H : Host α) (dt : α) (g : Game α)
    (hn : (g.brainrots.map Brainrot.ref).Nodup) :
    (g.updateBrainrots H dt).brainrots =
      (g.brainrots.filter fun b => !Game.overlapsBrainrot H dt g.player b).map
        (Brainrot.update H dt) := by
  have h := Game.foldl_visitBrainrot_brainrots H dt g.brainrots g [] rfl hn
  simpa using h

/-! ### The particles after the loop -/

theorem Game.visitBrainrot_particles (H : Host α) (dt : α) (g : Game α) (b : Brainrot α) :
    (g.visitBrainrot H dt b).particles =
      g.particles ++ (if Game.overlapsBrainrot H dt g.player b then
        Game.collectionParticles H g.draws (b.update H dt) else []) := by
  unfold Game.visitBrainrot Game.collectBrainrot Game.overlapsBrainrot
  dsimp only
  split <;> simp

theorem Game.foldl_visitBrainrot_particles_append (H : Host α) (dt : α)
    (l : List (Brainrot α)) (g : Game α) :
    ∃ added, (l.foldl (Game.visitBrainrot H dt) g).particles = g.particles ++ added := by
  induction l generalizing g with
  | nil => exact ⟨[], by simp⟩
  | cons b l ih =>
    obtain ⟨t, ht⟩ := ih (g.visitBrainrot H dt b)
    rw [List.foldl_cons, ht, Game.visitBrainrot_particles]
    exact ⟨_, List.append_assoc _ _ _⟩

/-- Every walked collectible that overlaps the player leaves its five particles
in the array of particles. -/
theorem Game.foldl_visitBrainrot_particles (H : Host α) (dt : α) (l : List (Brainrot α))
    (g : Game α) (b : Brainrot α) (hb : b ∈ l)
    (ho : Game.overlapsBrainrot H dt g.player b = true) :
    ∃ k before after, (l.foldl (Game.visitBrainrot H dt) g).particles =
      before ++ Game.collectionParticles H k (b.update H dt) ++ after := by
  induction l generalizing g with
  | nil => exact absurd hb (List.not_mem_nil _)
  | cons c l ih =>
    rw [List.foldl_cons]
    rcases List.mem_cons.1 hb with rfl | hb
    · obtain ⟨t, ht⟩ := Game.foldl_visitBrainrot_particles_append H dt l (g.visitBrainrot H dt b)
      rw [ht, Game.visitBrainrot_particles, if_pos ho]
      exact ⟨_, _, _, rfl⟩
    · have hp : (g.visitBrainrot H dt c).player = g.player :=
        (Game.visitBrainrot_same H dt g g c
          ⟨rfl, rfl, rfl, rfl, rfl, rfl, rfl, rfl, rfl, rfl, rfl⟩).2.2.1
      exact ih (g.visitBrainrot H dt c) hb (by rw [hp]; exact ho)

theorem collectionParticles_update (H : Host α) (dt : α) (k : Nat) (b : Brainrot α) :
    ((Game.collectionParticles H k b).map (Particle.update dt)).filter
        (fun particle => decide (particle.life > 0)) =
      (Game.collectionParticles H k b).map (Particle.update dt) := by
  rw [List.filter_eq_self]
  intro q hq
  obtain ⟨q0, hq0, rfl⟩ := List.mem_map.1 hq
  obtain ⟨i, -, rfl⟩ := List.mem_map.1 hq0
  simp only [Particle.update, Particle.new, decide_eq_true_eq]
  norm_num

/-! ### What each part of `update` leaves alone -/

theorem Game.checkGameOver_fields (g : Game α) :
    g.checkGameOver.width = g.width ∧ g.checkGameOver.height = g.height ∧
    g.checkGameOver.player = g.player ∧ g.checkGameOver.brainrots = g.brainrots ∧
    g.checkGameOver.enemies = g.enemies ∧ g.checkGameOver.particles = g.particles ∧
    g.checkGameOver.score = g.score ∧ g.checkGameOver.health = g.health ∧
    g.checkGameOver.collected = g.collected ∧
    g.checkGameOver.brainrotSpawnTimer = g.brainrotSpawnTimer ∧
    g.checkGameOver.enemySpawnTimer = g.enemySpawnTimer ∧
    g.checkGameOver.nextRef = g.nextRef ∧ g.checkGameOver.draws = g.draws := by
  unfold Game.checkGameOver Game.gameOver
  split <;> exact ⟨rfl, rfl, rfl, rfl, rfl, rfl, rfl, rfl, rfl, rfl, rfl, rfl, rfl⟩

theorem Game.tickBrainrotTimer_fields (H : Host α) (dt : α) (g : Game α) :
    (g.tickBrainrotTimer H dt).width = g.width ∧ (g.tickBrainrotTimer H dt).height = g.height ∧
    (g.tickBrainrotTimer H dt).player = g.player ∧
    (g.tickBrainrotTimer H dt).enemies = g.enemies ∧
    (g.tickBrainrotTimer H dt).particles = g.particles ∧
    (g.tickBrainrotTimer H dt).score = g.score ∧ (g.tickBrainrotTimer H dt).health = g.health ∧
    (g.tickBrainrotTimer H dt).collected = g.collected ∧
    (g.tickBrainrotTimer H dt).enemySpawnTimer = g.enemySpawnTimer := by
  unfold Game.tickBrainrotTimer Game.spawnBrainrot
  dsimp only
  split <;> exact ⟨rfl, rfl, rfl, rfl, rfl, rfl, rfl, rfl, rfl⟩

theorem Game.tickEnemyTimer_fields [FloorRing α] (H : Host α) (dt : α) (g : Game α) :
    (g.tickEnemyTimer H dt).width = g.width ∧ (g.tickEnemyTimer H dt).height = g.height ∧
    (g.tickEnemyTimer H dt).player = g.player ∧
    (g.tickEnemyTimer H dt).brainrots = g.brainrots ∧
    (g.tickEnemyTimer H dt).particles = g.particles ∧
    (g.tickEnemyTimer H dt).score = g.score ∧ (g.tickEnemyTimer H dt).health = g.health ∧
    (g.tickEnemyTimer H dt).collected = g.collected ∧
    (g.tickEnemyTimer H dt).brainrotSpawnTimer = g.brainrotSpawnTimer := by
  unfold Game.tickEnemyTimer Game.spawnEnemy
  dsimp only
  split <;> exact ⟨rfl, rfl, rfl, rfl, rfl, rfl, rfl, rfl, rfl⟩

/-- The fields of the state before the loops that come from the call's start. -/
theorem Game.beforeLoops_fields [FloorRing α] (H : Host α) (dt : α) (g : Game α) :
    (g.beforeLoops H dt).width = g.width ∧ (g.beforeLoops H dt).height = g.height ∧
    (g.beforeLoops H dt).player = g.movePlayer.player ∧
    (g.beforeLoops H dt).particles = g.particles ∧
    (g.beforeLoops H dt).score = g.score ∧ (g.beforeLoops H dt).health = g.health ∧
    (g.beforeLoops H dt).collected = g.collected := by
  obtain ⟨e1, e2, e3, -, e5, e6, e7, e8, -⟩ :=
    Game.tickEnemyTimer_fields H dt (g.movePlayer.tickBrainrotTimer H dt)
  obtain ⟨b1, b2, b3, -, b5, b6, b7, b8, -⟩ := Game.tickBrainrotTimer_fields H dt g.movePlayer
  unfold Game.beforeLoops
  rw [e1, e2, e3, e5, e6, e7, e8, b1, b2, b3, b5, b6, b7, b8]
  exact ⟨rfl, rfl, rfl, rfl, rfl, rfl, rfl⟩

/-- The fields after `update` in terms of the states between its parts. -/
theorem Game.update_fields [FloorRing α] (H : Host α) (dt : α) (g : Game α) :
    (g.update H dt).width = g.width ∧ (g.update H dt).height = g.height ∧
    (g.update H dt).player = g.movePlayer.player ∧
    (g.update H dt).score = ((g.beforeLoops H dt).updateBrainrots H dt).score ∧
    (g.update H dt).collected = ((g.beforeLoops H dt).updateBrainrots H dt).collected ∧
    (g.update H dt).health =
      (((g.beforeLoops H dt).updateBrainrots H dt).updateEnemies H dt).health ∧
    (g.update H dt).brainrots = ((g.beforeLoops H dt).updateBrainrots H dt).brainrots ∧
    (g.update H dt).brainrotSpawnTimer = (g.beforeLoops H dt).brainrotSpawnTimer ∧
    (g.update H dt).enemySpawnTimer = (g.beforeLoops H dt).enemySpawnTimer ∧
    (g.update H dt).nextRef = (g.beforeLoops H dt).nextRef := by
  obtain ⟨c1, c2, c3, c4, -, -, c7, c8, c9, c10, c11, c12, -⟩ := Game.checkGameOver_fields
    ((((g.beforeLoops H dt).updateBrainrots H dt).updateEnemies H dt
      ).removeOffscreen.updateParticles dt)
  obtain ⟨e1, e2, e3, e4, -, e6, e7, -, -, e10, e11, -, e13, -⟩ :=
    Game.updateEnemies_same H dt ((g.beforeLoops H dt).updateBrainrots H dt)
  obtain ⟨b1, b2, b3, -, -, -, -, b8, b9, b10, -⟩ :=
    Game.updateBrainrots_same H dt (g.beforeLoops H dt)
  obtain ⟨f1, f2, f3, -, -, -, -⟩ := Game.beforeLoops_fields H dt g
  unfold Game.update
  rw [c1, c2, c3, c4, c7, c8, c9, c10, c11, c12]
  simp only [Game.updateParticles, Game.removeOffscreen]
  rw [e1, e2, e3, e4, e6, e7, e10, e11, e13, b1, b2, b3, b8, b9, b10, f1, f2, f3]
  simp

theorem Game.update_particles [FloorRing α] (H : Host α) (dt : α) (g : Game α) :
    (g.update H dt).particles =
      (((g.beforeLoops H dt).updateBrainrots H dt).particles.map (Particle.update dt)).filter
        fun particle => decide (particle.life > 0) := by
  obtain ⟨-, -, -, -, -, c6, -⟩ := Game.checkGameOver_fields
    ((((g.beforeLoops H dt).updateBrainrots H dt).updateEnemies H dt
      ).removeOffscreen.updateParticles dt)
  obtain ⟨-, -, -, -, e5, -⟩ :=
    Game.updateEnemies_same H dt ((g.beforeLoops H dt).updateBrainrots H dt)
  unfold Game.update
  rw [c6]
  simp only [Game.updateParticles, Game.removeOffscreen]
  rw [e5]

/-- Score and collected after `update`. -/
theorem Game.update_counters [FloorRing α] (H : Host α) (dt : α) (g : Game α) :
    (g.update H dt).score = g.score + ((g.collectedNow H dt).map Brainrot.points).sum ∧
    (g.update H dt).collected = g.collected + ((g.collectedNow H dt).length : α) := by
  obtain ⟨-, -, -, u4, u5, -⟩ := Game.update_fields H dt g
  obtain ⟨-, -, -, -, f5, -, f7⟩ := Game.beforeLoops_fields H dt g
  obtain ⟨c1, c2, -⟩ :=
    Game.foldl_visitBrainrot_counters H dt (g.beforeLoops H dt).brainrots (g.beforeLoops H dt)
  constructor
  · rw [u4, ← f5]; exact c1
  · rw [u5, ← f7]; exact c2

/-- The two spawn timers after `update`. -/
theorem Game.update_timers [FloorRing α] (H : Host α) (dt : α) (g : Game α) :
    (g.update H dt).brainrotSpawnTimer =
      (if g.brainrotSpawnTimer + dt > 2000 then 0 else g.brainrotSpawnTimer + dt) ∧
    (g.update H dt).enemySpawnTimer =
      (if g.enemySpawnTimer + dt > 3000 then 0 else g.enemySpawnTimer + dt) := by
  obtain ⟨-, -, -, -, -, -, -, h8, h9, -⟩ := Game.update_fields H dt g
  rw [h8, h9]
  unfold Game.beforeLoops Game.tickEnemyTimer Game.tickBrainrotTimer Game.spawnEnemy
    Game.spawnBrainrot Game.movePlayer
  dsimp only
  by_cases hb : g.brainrotSpawnTimer + dt > 2000 <;> by_cases he : g.enemySpawnTimer + dt > 3000
  all_goals simp only [hb, he, if_true, if_false]
  all_goals exact ⟨trivial, trivial⟩

/-- Every collectible in the array after the loop is the updated self of one
that was in the walked array. -/
theorem Game.foldl_visitBrainrot_updated (H : Host α) (dt : α) (all l : List (Brainrot α)) :
    ∀ g : Game α, (∀ x ∈ l, x ∈ all) →
      (∀ c ∈ g.brainrots, (∃ x ∈ all, c = x.update H dt) ∨ ∃ x ∈ l, x.ref = c.ref) →
      ∀ c ∈ (l.foldl (Game.visitBrainrot H dt) g).brainrots, ∃ x ∈ all, c = x.update H dt := by
  induction l with
  | nil =>
    intro g _ hg c hc
    rcases hg c hc with h | ⟨x, hx, -⟩
    · exact h
    · exact absurd hx (List.not_mem_nil _)
  | cons b l ih =>
    intro g hl hg
    rw [List.foldl_cons]
    apply ih _ (fun x hx => hl x (List.mem_cons_of_mem _ hx))
    have hm : ∀ c ∈ g.brainrots.map (fun c => if c.ref = b.ref then b.update H dt else c),
        (∃ x ∈ all, c = x.update H dt) ∨ ∃ x ∈ l, x.ref = c.ref := by
      intro c hc
      obtain ⟨c0, hc0, rfl⟩ := List.mem_map.1 hc
      by_cases hr : c0.ref = b.ref
      · rw [if_pos hr]
        exact Or.inl ⟨b, hl b (List.mem_cons_self _ _), rfl⟩
      · rw [if_neg hr]
        rcases hg c0 hc0 with h | ⟨x, hx, hxr⟩
        · exact Or.inl h
        · rcases List.mem_cons.1 hx with rfl | hx
          · exact absurd hxr.symm hr
          · exact Or.inr ⟨x, hx, hxr⟩
    unfold Game.visitBrainrot Game.collectBrainrot
    dsimp only
    split
    · exact fun c hc => hm c (List.mem_filter.1 hc).1
    · exact hm

theorem Game.update_brainrots_updated [FloorRing α] (H : Host α) (dt : α) (g : Game α) :
    ∀ c ∈ (g.update H dt).brainrots,
      ∃ b ∈ (g.beforeLoops H dt).brainrots, c = b.update H dt := by
  rw [(Game.update_fields H dt g).2.2.2.2.2.2.1]
  exact Game.foldl_visitBrainrot_updated H dt _ _ (g.beforeLoops H dt) (fun _ hx => hx)
    (fun c hc => Or.inr ⟨c, hc, rfl⟩)

theorem brainrot_update_bobOffset (H : Host α) (dt : α) (b : Brainrot α) :
    (b.update H dt).bobOffset = b.bobOffset + b.bobSpeed * dt := by
  unfold Brainrot.update; dsimp only; split <;> rfl

/-! ### The invariant of a running game -/

theorem rarityData_points_nonneg (r : Rarity) : (0 : α) ≤ (rarityData r : RarityData α).points := by
  cases r <;> simp [rarityData]

theorem brainrot_new_points_nonneg (H : Host α) (ref : Nat) (x y r0 r1 r2 : α) :
    0 ≤ (Brainrot.new H ref x y r0 r1 r2).points := by
  have h := rarityData_points_nonneg (α := α) (Brainrot.determineRarity r1)
  unfold Brainrot.new Brainrot.setRarityProperties Brainrot.mutate
  dsimp only
  split
  · exact mul_nonneg h (by norm_num)
  · exact h

theorem Game.visitBrainrot_inv (H : Host α) (dt : α) (g : Game α) (b : Brainrot α)
    (hb : 0 ≤ b.points) (h : g.Inv) : (g.visitBrainrot H dt b).Inv := by
  obtain ⟨h1, h2, h3, h4⟩ := h
  have hm : ∀ c ∈ g.brainrots.map (fun c => if c.ref = b.ref then b.update H dt else c),
      0 ≤ c.points := by
    intro c hc
    obtain ⟨c0, hc0, rfl⟩ := List.mem_map.1 hc
    split
    · rw [brainrot_update_points]; exact hb
    · exact h4 c0 hc0
  unfold Game.visitBrainrot Game.collectBrainrot
  dsimp only
  split
  · exact ⟨h1, h2, h3, fun c hc => hm c (List.mem_filter.1 hc).1⟩
  · exact ⟨h1, h2, h3, hm⟩

theorem Game.updateBrainrots_inv (H : Host α) (dt : α) (g : Game α) (h : g.Inv) :
    (g.updateBrainrots H dt).Inv :=
  foldl_invariant Game.Inv _ _
    (fun s c hc hs => Game.visitBrainrot_inv H dt s c (h.2.2.2 c hc) hs) g h

/-- One enemy visit keeps the invariant and does not raise health. -/
theorem Game.visitEnemy_inv (H : Host α) (dt : α) (g : Game α) (e : Enemy α)
    (he : e.damage = 10) (h : g.Inv) :
    (g.visitEnemy H dt e).Inv ∧ (g.visitEnemy H dt e).health ≤ g.health := by
  obtain ⟨h1, h2, h3, h4⟩ := h
  have hm : ∀ c ∈ g.enemies.map (fun c => if c.ref = e.ref then e.update H g.player dt else c),
      c.damage = 10 := by
    intro c hc
    obtain ⟨c0, hc0, rfl⟩ := List.mem_map.1 hc
    split
    · rw [enemy_update_damage]; exact he
    · exact h3 c0 hc0
  unfold Game.visitEnemy Game.takeDamage
  dsimp only
  rw [enemy_update_damage, he]
  split
  · refine ⟨⟨?_, ?_, fun c hc => hm c (List.mem_filter.1 hc).1, h4⟩, ?_⟩ <;>
      dsimp only <;> split <;> linarith
  · exact ⟨⟨h1, h2, hm, h4⟩, le_refl _⟩

theorem Game.updateEnemies_inv (H : Host α) (dt : α) (g : Game α) (h : g.Inv) :
    (g.updateEnemies H dt).Inv ∧ (g.updateEnemies H dt).health ≤ g.health :=
  foldl_invariant (fun s : Game α => s.Inv ∧ s.health ≤ g.health) _ _
    (fun s c hc hs =>
      have h1 := Game.visitEnemy_inv H dt s c (h.2.2.1 c hc) hs.1
      ⟨h1.1, le_trans h1.2 hs.2⟩) g ⟨h, le_refl _⟩

theorem Game.tickBrainrotTimer_inv (H : Host α) (dt : α) (g : Game α) (h : g.Inv) :
    (g.tickBrainrotTimer H dt).Inv := by
  obtain ⟨h1, h2, h3, h4⟩ := h
  unfold Game.tickBrainrotTimer Game.spawnBrainrot
  dsimp only
  split
  · refine ⟨h1, h2, h3, fun b hb => ?_⟩
    rcases List.mem_append.1 hb with hb | hb
    · exact h4 b hb
    · rw [List.mem_singleton.1 hb]; exact brainrot_new_points_nonneg H _ _ _ _ _ _
  · exact ⟨h1, h2, h3, h4⟩

theorem Game.tickEnemyTimer_inv [FloorRing α] (H : Host α) (dt : α) (g : Game α) (h : g.Inv) :
    (g.tickEnemyTimer H dt).Inv := by
  obtain ⟨h1, h2, h3, h4⟩ := h
  unfold Game.tickEnemyTimer Game.spawnEnemy
  dsimp only
  split
  · refine ⟨h1, h2, fun e he => ?_, h4⟩
    rcases List.mem_append.1 he with he | he
    · exact h3 e he
    · rw [List.mem_singleton.1 he]; rfl
  · exact ⟨h1, h2, h3, h4⟩

theorem Game.beforeLoops_inv [FloorRing α] (H : Host α) (dt : α) (g : Game α) (h : g.Inv) :
    (g.beforeLoops H dt).Inv :=
  Game.tickEnemyTimer_inv H dt _ (Game.tickBrainrotTimer_inv H dt g.movePlayer h)

theorem Game.update_inv [FloorRing α] (H : Host α) (dt : α) (g : Game α) (h : g.Inv) :
    (g.update H dt).Inv ∧ (g.update H dt).health ≤ g.health := by
  have h1 := Game.updateBrainrots_inv H dt _ (Game.beforeLoops_inv H dt g h)
  obtain ⟨⟨i1, i2, i3, i4⟩, hle⟩ := Game.updateEnemies_inv H dt _ h1
  have e1 : ((g.beforeLoops H dt).updateBrainrots H dt).health = g.health := by
    rw [(Game.updateBrainrots_same H dt (g.beforeLoops H dt)).2.2.2.2.1,
      (Game.beforeLoops_fields H dt g).2.2.2.2.2.1]
  obtain ⟨-, -, -, -, f5, -, -, f8, -⟩ := Game.checkGameOver_fields
    ((((g.beforeLoops H dt).updateBrainrots H dt).updateEnemies H dt
      ).removeOffscreen.updateParticles dt)
  obtain ⟨-, -, -, -, -, u6, u7, -⟩ := Game.update_fields H dt g
  refine ⟨⟨?_, ?_, ?_, ?_⟩, ?_⟩
  · rw [u6]; exact i1
  · rw [u6]; exact i2
  · unfold Game.update
    rw [f5]
    intro e he
    exact i3 e (List.mem_filter.1 he).1
  · rw [u7]
    exact (Game.updateBrainrots_inv H dt _ (Game.beforeLoops_inv H dt g h)).2.2.2
  · rw [u6, ← e1]; exact hle

theorem Game.Reachable.inv [FloorRing α] (H : Host α) (g : Game α) (h : Game.Reachable H g) :
    g.Inv := by
  induction h with
  | new width height =>
    refine ⟨?_, ?_, ?_, ?_⟩ <;> simp [Game.new]
  | update dt g _ ih => exact (Game.update_inv H dt g ih).1
  | setKeys keys g _ ih => exact ih

/-! ### Distinct objects -/

theorem Game.beforeLoops_distinct [FloorRing α] (H : Host α) (dt : α) (g : Game α)
    (h : g.DistinctBrainrots) : (g.beforeLoops H dt).DistinctBrainrots := by
  obtain ⟨h1, h2⟩ := h
  have hb : (g.movePlayer.tickBrainrotTimer H dt).DistinctBrainrots := by
    unfold Game.tickBrainrotTimer Game.spawnBrainrot Game.movePlayer
    dsimp only
    split
    · constructor
      · rw [List.map_append, List.nodup_append]
        refine ⟨h1, List.nodup_singleton _, fun x hx hy => ?_⟩
        obtain ⟨b, hb, rfl⟩ := List.mem_map.1 hx
        have hlt := h2 b hb
        have heq : b.ref = g.nextRef := by
          simpa [Brainrot.new, Brainrot.setRarityProperties, Brainrot.mutate, apply_ite] using hy
        omega
      · intro b hb
        rcases List.mem_append.1 hb with hb | hb
        · exact Nat.lt_succ_of_lt (h2 b hb)
        · rw [List.mem_singleton.1 hb]
          simp [Brainrot.new, Brainrot.setRarityProperties, Brainrot.mutate, apply_ite]
    · exact ⟨h1, h2⟩
  obtain ⟨b1, b2⟩ := hb
  unfold Game.beforeLoops Game.tickEnemyTimer Game.spawnEnemy
  dsimp only
  split
  · exact ⟨b1, fun b hb => Nat.lt_succ_of_lt (b2 b hb)⟩
  · exact ⟨b1, b2⟩

theorem Game.update_distinct [FloorRing α] (H : Host α) (dt : α) (g : Game α)
    (h : g.DistinctBrainrots) : (g.update H dt).DistinctBrainrots := by
  obtain ⟨h1, h2⟩ := Game.beforeLoops_distinct H dt g h
  obtain ⟨-, -, -, -, -, -, u7, -, -, u10⟩ := Game.update_fields H dt g
  unfold Game.DistinctBrainrots
  rw [u7, u10, Game.updateBrainrots_brainrots H dt _ h1]
  constructor
  · rw [List.map_map]
    have : (Brainrot.ref ∘ Brainrot.update H dt) = (Brainrot.ref : Brainrot α → Nat) :=
      funext fun b => brainrot_update_ref H dt b
    rw [this]
    exact (List.filter_sublist _).map _ |>.nodup h1
  · intro c hc
    obtain ⟨c0, hc0, rfl⟩ := List.mem_map.1 hc
    rw [brainrot_update_ref]
    exact h2 c0 (List.mem_filter.1 hc0).1

/-- In a running game the collectibles of the array are pairwise different
objects, also when the loop of `update` starts. -/
theorem Game.Reachable.distinct [FloorRing α] (H : Host α) (g : Game α)
    (h : Game.Reachable H g) :
    g.DistinctBrainrots ∧
    ∀ dt : α, ((g.beforeLoops H dt).brainrots.map Brainrot.ref).Nodup := by
  have hd : g.DistinctBrainrots := by
    induction h with
    | new width height => exact ⟨List.nodup_nil, fun b hb => absurd hb (List.not_mem_nil _)⟩
    | update dt g _ ih => exact Game.update_distinct H dt g ih
    | setKeys keys g _ ih => exact ih
  exact ⟨hd, fun dt => (Game.beforeLoops_distinct H dt g hd).1⟩

/-- C1: from every reachable state, `update` leaves health within `[0,100]` and
does not raise it; `takeDamage` subtracts the damage and floors the result at 0. -/
theorem update_health_bounds [FloorRing α] (H : Host α) (dt : α) (g : Game α)
    (hg : Game.Reachable H g) :
    0 ≤ (g.update H dt).health ∧ (g.update H dt).health ≤ 100 ∧
    (g.update H dt).health ≤ g.health ∧
    (∀ damage : α, (g.takeDamage damage).health = max 0 (g.health - damage)) := by
  obtain ⟨⟨h1, h2, -, -⟩, h3⟩ := Game.update_inv H dt g (Game.Reachable.inv H g hg)
  refine ⟨h1, h2, h3, fun damage => ?_⟩
  unfold Game.takeDamage
  dsimp only
  split
  · rw [max_eq_left]; linarith
  · rw [max_eq_right]; linarith

/-- Witness for C1: the 800 x 600 game after a frame of 3001 ms, which spawned
a collectible and an enemy. -/
theorem update_health_bounds_witness :
    (((Game.new (800 : ℚ) 600).update Host.approx 3001).update Host.approx 16).health ≤
      ((Game.new (800 : ℚ) 600).update Host.approx 3001).health :=
  (update_health_bounds Host.approx 16 ((Game.new (800 : ℚ) 600).update Host.approx 3001)
    (Game.Reachable.update 3001 _ (Game.Reachable.new 800 600))).2.2.1

/-- C2: from every reachable state, `update` does not lower score or collected.
Both grow by exactly what `collectBrainrot` adds for the collectibles that
overlap the player in the call (their points, and one each), so they stay the
same when no collectible overlaps the player in the tick. -/
theorem update_score_collected [FloorRing α] (H : Host α) (dt : α) (g : Game α)
    (hg : Game.Reachable H g) :
    g.score ≤ (g.update H dt).score ∧ g.collected ≤ (g.update H dt).collected ∧
    (g.update H dt).score = g.score + ((g.collectedNow H dt).map Brainrot.points).sum ∧
    (g.update H dt).collected = g.collected + ((g.collectedNow H dt).length : α) ∧
    ((∀ b ∈ (g.beforeLoops H dt).brainrots,
        Game.overlapsBrainrot H dt (g.beforeLoops H dt).player b = false) →
      (g.update H dt).score = g.score ∧ (g.update H dt).collected = g.collected) := by
  obtain ⟨hs, hc⟩ := Game.update_counters H dt g
  have hinv := Game.beforeLoops_inv H dt g (Game.Reachable.inv H g hg)
  refine ⟨?_, ?_, hs, hc, fun hno => ?_⟩
  · rw [hs]
    apply le_add_of_nonneg_right
    apply List.sum_nonneg
    intro x hx
    obtain ⟨b, hb, rfl⟩ := List.mem_map.1 hx
    exact hinv.2.2.2 b (List.mem_filter.1 hb).1
  · rw [hc]
    exact le_add_of_nonneg_right (Nat.cast_nonneg _)
  · have hnil : g.collectedNow H dt = [] := by
      unfold Game.collectedNow
      rw [List.filter_eq_nil_iff]
      intro b hb
      simp [hno b hb]
    rw [hs, hc, hnil]
    simp

/-- Witness for C2: the 800 x 600 game after a frame of 3001 ms, which spawned
a collectible and an enemy. -/
theorem update_score_collected_witness :
    ((Game.new (800 : ℚ) 600).update Host.approx 3001).score ≤
      (((Game.new (800 : ℚ) 600).update Host.approx 3001).update Host.approx 16).score :=
  (update_score_collected Host.approx 16 ((Game.new (800 : ℚ) 600).update Host.approx 3001)
    (Game.Reachable.update 3001 _ (Game.Reachable.new 800 600))).1

/-- C7: for a draw `r` in `[0,1)`, `determineRarity` returns the tier whose
half-open band holds `r`: common `[0,0.40)`, uncommon `[0.40,0.65)`, rare
`[0.65,0.80)`, epic `[0.80,0.92)`, legendary `[0.92,0.98)`, mythic `[0.98,1)`.
The function returns one tier and each tier is returned on its band only, so
the six bands partition `[0,1)`. -/
theorem determineRarity_bands (r : α) (h0 : 0 ≤ r) (h1 : r < 1) :
    (Brainrot.determineRarity r = Rarity.common ↔ 0 ≤ r ∧ r < 0.40) ∧
    (Brainrot.determineRarity r = Rarity.uncommon ↔ 0.40 ≤ r ∧ r < 0.65) ∧
    (Brainrot.determineRarity r = Rarity.rare ↔ 0.65 ≤ r ∧ r < 0.80) ∧
    (Brainrot.determineRarity r = Rarity.epic ↔ 0.80 ≤ r ∧ r < 0.92) ∧
    (Brainrot.determineRarity r = Rarity.legendary ↔ 0.92 ≤ r ∧ r < 0.98) ∧
    (Brainrot.determineRarity r = Rarity.mythic ↔ 0.98 ≤ r ∧ r < 1.0) := by
  have e1 : (0.40 : α) = 0.4 := by norm_num
  have e2 : (0.80 : α) = 0.8 := by norm_num
  have e3 : (1.0 : α) = 1 := by norm_num
  have c1 : (0.4 : α) < 0.65 := by norm_num
  have c2 : (0.65 : α) < 0.8 := by norm_num
  have c3 : (0.8 : α) < 0.92 := by norm_num
  have c4 : (0.92 : α) < 0.98 := by norm_num
  have c5 : (0.98 : α) < 1 := by norm_num
  rw [e1, e2, e3]
  unfold Brainrot.determineRarity
  clear e1 e2 e3
  generalize (0.4 : α) = t1 at *
  generalize (0.65 : α) = t2 at *
  generalize (0.8 : α) = t3 at *
  generalize (0.92 : α) = t4 at *
  generalize (0.98 : α) = t5 at *
  split_ifs with h4 h5 h6 h7 h8 <;>
    simp only [reduceCtorEq, false_iff, true_iff, not_and, not_lt] at * <;>
    refine ⟨?_, ?_, ?_, ?_, ?_, ?_⟩ <;>
    first
      | (constructor <;> linarith)
      | (intro _; linarith)

/-- Witness for C7: the draw `1/2` lies in the band of `uncommon`. -/
theorem determineRarity_bands_witness :
    Brainrot.determineRarity (1 / 2 : ℚ) = Rarity.uncommon :=
  (determineRarity_bands (1 / 2 : ℚ) (by norm_num) (by norm_num)).2.1.2
    ⟨by norm_num, by norm_num⟩

/-- C6: a collectible built by the constructor with a mutation draw below `0.1`
has twice the points of its tier's row (common 10, uncommon 25, rare 50, epic
100, legendary 200, mythic 500) and radius `1.5 * 12 = 18`; with any other draw
it has the row's points and radius 12. -/
theorem brainrot_new_points_radius (H : Host α) (ref : Nat)
    (x y bobDraw rarityDraw mutationDraw : α) :
    (rarityData Rarity.common : RarityData α).points = 10 ∧
    (rarityData Rarity.uncommon : RarityData α).points = 25 ∧
    (rarityData Rarity.rare : RarityData α).points = 50 ∧
    (rarityData Rarity.epic : RarityData α).points = 100 ∧
    (rarityData Rarity.legendary : RarityData α).points = 200 ∧
    (rarityData Rarity.mythic : RarityData α).points = 500 ∧
    (Brainrot.new H ref x y bobDraw rarityDraw mutationDraw).rarity =
      Brainrot.determineRarity rarityDraw ∧
    (Brainrot.new H ref x y bobDraw rarityDraw mutationDraw).points =
      (if mutationDraw < 0.1 then
        2 * (rarityData (Brainrot.determineRarity rarityDraw) : RarityData α).points
       else (rarityData (Brainrot.determineRarity rarityDraw) : RarityData α).points) ∧
    (Brainrot.new H ref x y bobDraw rarityDraw mutationDraw).radius =
      (if mutationDraw < 0.1 then 1.5 * 12 else 12) ∧
    (1.5 * 12 : α) = 18 := by
  refine ⟨rfl, rfl, rfl, rfl, rfl, rfl, ?_, ?_, ?_, by norm_num⟩ <;>
    unfold Brainrot.new Brainrot.setRarityProperties Brainrot.mutate <;>
    dsimp only <;> split <;> first | rfl | ring

/-- C10: in a world at least 30 wide and 30 high, whatever keys are held and
wherever the player (radius 15) was, after `update` the player satisfies
`radius ≤ x ≤ width - radius` and `radius ≤ y ≤ height - radius`. -/
theorem update_player_clamped [FloorRing α] (H : Host α) (dt : α) (g : Game α)
    (hr : g.player.radius = 15) (hw : 30 ≤ g.width) (hh : 30 ≤ g.height) :
    (g.update H dt).player.radius = 15 ∧
    (g.update H dt).player.radius ≤ (g.update H dt).player.x ∧
    (g.update H dt).player.x ≤ (g.update H dt).width - (g.update H dt).player.radius ∧
    (g.update H dt).player.radius ≤ (g.update H dt).player.y ∧
    (g.update H dt).player.y ≤ (g.update H dt).height - (g.update H dt).player.radius := by
  obtain ⟨h1, h2, h3, -⟩ := Game.update_fields H dt g
  rw [h1, h2, h3]
  have key : ∀ p : Player α, p.radius = 15 →
      (p.update g.width g.height).radius = 15 ∧
      (p.update g.width g.height).radius ≤ (p.update g.width g.height).x ∧
      (p.update g.width g.height).x ≤ g.width - (p.update g.width g.height).radius ∧
      (p.update g.width g.height).radius ≤ (p.update g.width g.height).y ∧
      (p.update g.width g.height).y ≤ g.height - (p.update g.width g.height).radius := by
    intro p hp
    simp only [Player.update, hp]
    refine ⟨trivial, le_max_left _ _, max_le (by linarith) (min_le_left _ _), le_max_left _ _,
      max_le (by linarith) (min_le_left _ _)⟩
  unfold Game.movePlayer
  dsimp only
  apply key
  split_ifs <;> simp only [Player.moveUp, Player.moveDown, Player.moveLeft, Player.moveRight, hr]

/-- Witness for C10: the 800 x 600 game with `w` and `a` held. -/
theorem update_player_clamped_witness :
    (15 : ℚ) ≤ ((((Game.new 800 600).setKeys
      ⟨true, false, true, false, false, false, false, false⟩).update Host.approx 16).player.x) :=
  have h := update_player_clamped Host.approx 16
    ((Game.new (800 : ℚ) 600).setKeys ⟨true, false, true, false, false, false, false, false⟩)
    rfl (by norm_num [Game.new, Game.setKeys]) (by norm_num [Game.new, Game.setKeys])
  h.1 ▸ h.2.1

/-- C8: `update` handles the two spawn timers independently, for every
`deltaTime` (so for every `deltaTime ≥ 0`).  If `brainrotSpawnTimer + deltaTime`
exceeds 2000 one collectible is appended and the timer is 0 after the call,
otherwise none is and the timer is the sum; likewise for the enemy timer with
3000.  The number of objects allocated by the call is the number of timers that
fired, at most one of each kind. -/
theorem update_spawn_timers [FloorRing α] (H : Host α) (dt : α) (g : Game α) :
    (g.update H dt).brainrotSpawnTimer =
      (if g.brainrotSpawnTimer + dt > 2000 then 0 else g.brainrotSpawnTimer + dt) ∧
    (g.update H dt).enemySpawnTimer =
      (if g.enemySpawnTimer + dt > 3000 then 0 else g.enemySpawnTimer + dt) ∧
    (∃ spawned : List (Brainrot α),
      (g.beforeLoops H dt).brainrots = g.brainrots ++ spawned ∧
      spawned.length = (if g.brainrotSpawnTimer + dt > 2000 then 1 else 0)) ∧
    (∃ spawned : List (Enemy α),
      (g.beforeLoops H dt).enemies = g.enemies ++ spawned ∧
      spawned.length = (if g.enemySpawnTimer + dt > 3000 then 1 else 0)) ∧
    (g.update H dt).nextRef =
      g.nextRef + (if g.brainrotSpawnTimer + dt > 2000 then 1 else 0) +
        (if g.enemySpawnTimer + dt > 3000 then 1 else 0) := by
  obtain ⟨-, -, -, -, -, -, -, h8, h9, h10⟩ := Game.update_fields H dt g
  rw [h8, h9, h10]
  unfold Game.beforeLoops Game.tickEnemyTimer Game.tickBrainrotTimer Game.spawnEnemy
    Game.spawnBrainrot Game.movePlayer
  dsimp only
  by_cases hb : g.brainrotSpawnTimer + dt > 2000 <;> by_cases he : g.enemySpawnTimer + dt > 3000
  all_goals simp only [hb, he, if_true, if_false]
  all_goals refine ⟨trivial, trivial, ?_, ?_, ?_⟩
  all_goals first
    | exact ⟨[_], rfl, rfl⟩
    | exact ⟨[], (List.append_nil _).symm, rfl⟩
    | simp

/-- C5, as the code has it: `update` does not clamp `deltaTime`.  For a negative
`deltaTime` each spawn timer is advanced by `deltaTime` itself, so a timer that
was at most its threshold ends strictly lower, and every collectible left in
the array had its bob phase moved by `bobSpeed * deltaTime`, backwards for a
positive `bobSpeed`. -/
theorem update_negative_deltaTime [FloorRing α] (H : Host α) (dt : α) (g : Game α)
    (hdt : dt < 0) :
    (g.update H dt).brainrotSpawnTimer =
      (if g.brainrotSpawnTimer + dt > 2000 then 0 else g.brainrotSpawnTimer + dt) ∧
    (g.update H dt).enemySpawnTimer =
      (if g.enemySpawnTimer + dt > 3000 then 0 else g.enemySpawnTimer + dt) ∧
    (g.brainrotSpawnTimer ≤ 2000 → (g.update H dt).brainrotSpawnTimer < g.brainrotSpawnTimer) ∧
    (g.enemySpawnTimer ≤ 3000 → (g.update H dt).enemySpawnTimer < g.enemySpawnTimer) ∧
    (∀ c ∈ (g.update H dt).brainrots, ∃ b ∈ (g.beforeLoops H dt).brainrots,
      c = b.update H dt ∧ c.bobOffset = b.bobOffset + b.bobSpeed * dt ∧
      (0 < b.bobSpeed → c.bobOffset < b.bobOffset)) := by
  obtain ⟨t1, t2⟩ := Game.update_timers H dt g
  refine ⟨t1, t2, fun h => ?_, fun h => ?_, fun c hc => ?_⟩
  · rw [t1, if_neg (by linarith)]; linarith
  · rw [t2, if_neg (by linarith)]; linarith
  · obtain ⟨b, hb, rfl⟩ := Game.update_brainrots_updated H dt g c hc
    refine ⟨b, hb, rfl, brainrot_update_bobOffset H dt b, fun hs => ?_⟩
    rw [brainrot_update_bobOffset]
    nlinarith

/-- Witness for C5: the fresh 800 x 600 game and `deltaTime = -16`. -/
theorem update_negative_deltaTime_witness :
    ((Game.new (800 : ℚ) 600).update Host.approx (-16)).enemySpawnTimer <
      (Game.new (800 : ℚ) 600).enemySpawnTimer :=
  (update_negative_deltaTime Host.approx (-16) (Game.new (800 : ℚ) 600) (by norm_num)).2.2.2.1
    (by norm_num [Game.new])

/-- Counterexample to C5 as stated: on the fresh 800 x 600 game `update(-1)`
and `update(0)` end in different states; after `update(-1)` the collectible
spawn timer is `-1`, below the `0` it started from. -/
theorem negative_deltaTime_differs :
    (Game.new (800 : ℚ) 600).update Host.approx (-1) ≠
      (Game.new (800 : ℚ) 600).update Host.approx 0 ∧
    ((Game.new (800 : ℚ) 600).update Host.approx (-1)).brainrotSpawnTimer = -1 ∧
    ((Game.new (800 : ℚ) 600).update Host.approx 0).brainrotSpawnTimer = 0 ∧
    (Game.new (800 : ℚ) 600).brainrotSpawnTimer = 0 := by
  have h1 : ((Game.new (800 : ℚ) 600).update Host.approx (-1)).brainrotSpawnTimer = -1 := by
    rw [(Game.update_timers Host.approx (-1) (Game.new (800 : ℚ) 600)).1]
    norm_num [Game.new]
  have h0 : ((Game.new (800 : ℚ) 600).update Host.approx 0).brainrotSpawnTimer = 0 := by
    rw [(Game.update_timers Host.approx 0 (Game.new (800 : ℚ) 600)).1]
    norm_num [Game.new]
  refine ⟨fun h => ?_, h1, h0, rfl⟩
  rw [h] at h1
  rw [h0] at h1
  norm_num at h1

/-! ### The example of the specification -/

theorem scenario_beforeLoops [FloorRing α] (H : Host α) :
    (Game.scenario : Game α).beforeLoops H 0 = Game.scenario := by
  have h1 : ¬ ((0 : α) > 2000) := by norm_num
  have h2 : ¬ ((0 : α) > 3000) := by norm_num
  have hx : max (15 : α) (min (800 - 15) (800 / 2)) = 800 / 2 := by
    rw [min_eq_right (by norm_num), max_eq_right (by norm_num)]
  have hy : max (15 : α) (min (600 - 15) (600 / 2)) = 600 / 2 := by
    rw [min_eq_right (by norm_num), max_eq_right (by norm_num)]
  simp only [Game.beforeLoops, Game.movePlayer, Game.tickBrainrotTimer, Game.tickEnemyTimer,
    Game.scenario, Game.new, Keys.none, Player.update, Player.new, Bool.or_self,
    Bool.false_eq_true, if_false, h1, h2, hx, hy, add_zero]

/-- C4, as the code has it: a collectible that overlaps the player in a call of
`update` (identities pairwise different) is gone from the array afterwards;
score has grown by the points of the collectibles collected in that call, its
own among them, and collected by their number, at least one; and the array of
particles holds its five particles, each already moved once by
`Particle.update`: life `1 - 0.02` and position the collectible's position
(after its own update) plus the particle's velocity. -/
theorem update_collects_overlapping [FloorRing α] (H : Host α) (dt : α) (g : Game α)
    (b : Brainrot α) (hn : ((g.beforeLoops H dt).brainrots.map Brainrot.ref).Nodup)
    (hb : b ∈ (g.beforeLoops H dt).brainrots)
    (ho : Game.overlapsBrainrot H dt (g.beforeLoops H dt).player b = true) :
    (∀ c ∈ (g.update H dt).brainrots, c.ref ≠ b.ref) ∧
    b ∈ g.collectedNow H dt ∧
    (g.update H dt).score = g.score + ((g.collectedNow H dt).map Brainrot.points).sum ∧
    (g.update H dt).collected = g.collected + ((g.collectedNow H dt).length : α) ∧
    1 ≤ (g.collectedNow H dt).length ∧
    ∃ k before after,
      (g.update H dt).particles =
        before ++ (Game.collectionParticles H k (b.update H dt)).map (Particle.update dt)
          ++ after ∧
      ((Game.collectionParticles H k (b.update H dt)).map (Particle.update dt)).length = 5 ∧
      ∀ q ∈ (Game.collectionParticles H k (b.update H dt)).map (Particle.update dt),
        q.life = 1 - 0.02 ∧ q.x = (b.update H dt).x + q.vx ∧
        q.y = (b.update H dt).y + q.vy ∧ q.color = b.color := by
  obtain ⟨hs, hc⟩ := Game.update_counters H dt g
  have hmem : b ∈ g.collectedNow H dt := List.mem_filter.2 ⟨hb, ho⟩
  refine ⟨?_, hmem, hs, hc, List.length_pos_of_mem hmem, ?_⟩
  · rw [(Game.update_fields H dt g).2.2.2.2.2.2.1, Game.updateBrainrots_brainrots H dt _ hn]
    intro c hc he
    obtain ⟨c0, hc0, rfl⟩ := List.mem_map.1 hc
    obtain ⟨hc1, hc2⟩ := List.mem_filter.1 hc0
    rw [brainrot_update_ref] at he
    have : c0 = b := List.inj_on_of_nodup_map hn hc1 hb he
    rw [this, ho] at hc2
    exact absurd hc2 (by simp)
  · obtain ⟨k, before, after, hk⟩ :=
      Game.foldl_visitBrainrot_particles H dt _ (g.beforeLoops H dt) b hb ho
    refine ⟨k, (before.map (Particle.update dt)).filter (fun q => decide (q.life > 0)),
      (after.map (Particle.update dt)).filter (fun q => decide (q.life > 0)), ?_, ?_, ?_⟩
    · rw [Game.update_particles, Game.updateBrainrots, hk, List.map_append, List.map_append,
        List.filter_append, List.filter_append, collectionParticles_update]
    · simp [Game.collectionParticles]
    · intro q hq
      obtain ⟨q0, hq0, rfl⟩ := List.mem_map.1 hq
      obtain ⟨i, -, rfl⟩ := List.mem_map.1 hq0
      refine ⟨rfl, rfl, rfl, ?_⟩
      simp only [Particle.update, Particle.new]
      unfold Brainrot.update
      dsimp only
      split <;> rfl

theorem scenario_overlaps :
    Game.overlapsBrainrot ⟨Real.sqrt, Real.sin, Real.pi, fun _ => 0⟩ (0 : ℝ)
      (Game.scenario : Game ℝ).player
      { ref := 0, x := 405, y := 300, radius := 12, bobOffset := 0, bobSpeed := 0.003
        originalY := 300, rarity := Rarity.common, color := "#9e9e9e", points := 10
        hasGlow := false, isMutated := false, mutationHue := none } = true := by
  have hsq : Real.sqrt 25 = 5 := by
    rw [show (25 : ℝ) = 5 ^ 2 by norm_num]
    exact Real.sqrt_sq (by norm_num)
  simp [Game.overlapsBrainrot, Brainrot.update, Game.checkCollision, Player.circle,
    Brainrot.circle, Game.scenario, Game.new, Player.new]
  norm_num [hsq]

/-- Witness for C4: the example of the specification with exact square root and
sine, all random draws 0 and `deltaTime` 0; its collectible is collected. -/
theorem update_collects_overlapping_witness :
    ({ ref := 0, x := 405, y := 300, radius := 12, bobOffset := 0, bobSpeed := 0.003
       originalY := 300, rarity := Rarity.common, color := "#9e9e9e", points := 10
       hasGlow := false, isMutated := false, mutationHue := none } : Brainrot ℝ) ∈
      (Game.scenario : Game ℝ).collectedNow ⟨Real.sqrt, Real.sin, Real.pi, fun _ => 0⟩ 0 ∧
    ((Game.scenario : Game ℝ).update ⟨Real.sqrt, Real.sin, Real.pi, fun _ => 0⟩ 0).collected =
      (Game.scenario : Game ℝ).collected +
        (((Game.scenario : Game ℝ).collectedNow
          ⟨Real.sqrt, Real.sin, Real.pi, fun _ => 0⟩ 0).length : ℝ) :=
  have h := update_collects_overlapping ⟨Real.sqrt, Real.sin, Real.pi, fun _ => 0⟩ 0
    (Game.scenario : Game ℝ)
    { ref := 0, x := 405, y := 300, radius := 12, bobOffset := 0, bobSpeed := 0.003
      originalY := 300, rarity := Rarity.common, color := "#9e9e9e", points := 10
      hasGlow := false, isMutated := false, mutationHue := none }
    (by rw [scenario_beforeLoops]; simp [Game.scenario])
    (by rw [scenario_beforeLoops]; simp [Game.scenario])
    (by rw [scenario_beforeLoops]; exact scenario_overlaps)
  ⟨h.2.1, h.2.2.2.1⟩

/-- Counterexample to C4 as stated: in the example of the specification (exact
square root and sine, all random draws 0, `deltaTime` 0) the collectible is
collected at (405,300), and after that call of `update` the five particles are
at (403,298); no particle is at (405,300). -/
theorem scenario_particles_moved :
    (((Game.scenario : Game ℝ).update ⟨Real.sqrt, Real.sin, Real.pi, fun _ => 0⟩ 0).particles.map
      fun q => (q.x, q.y)) = [(403, 298), (403, 298), (403, 298), (403, 298), (403, 298)] ∧
    ¬ ∃ q ∈ ((Game.scenario : Game ℝ).update
        ⟨Real.sqrt, Real.sin, Real.pi, fun _ => 0⟩ 0).particles, q.x = 405 ∧ q.y = 300 := by
  have hp : (((Game.scenario : Game ℝ).update
      ⟨Real.sqrt, Real.sin, Real.pi, fun _ => 0⟩ 0).particles.map fun q => (q.x, q.y)) =
      [(403, 298), (403, 298), (403, 298), (403, 298), (403, 298)] := by
    rw [Game.update_particles, scenario_beforeLoops, Game.updateBrainrots]
    rw [show (Game.scenario : Game ℝ).brainrots = [_] from rfl, List.foldl_cons, List.foldl_nil,
      Game.visitBrainrot_particles, if_pos scenario_overlaps]
    simp [Game.collectionParticles, Particle.new, Particle.update, List.range, List.range.loop,
      Brainrot.update, Game.scenario, Game.new]
    norm_num
  refine ⟨hp, ?_⟩
  rintro ⟨q, hq, hx, -⟩
  have hm : (q.x, q.y) ∈ [((403 : ℝ), (298 : ℝ)), (403, 298), (403, 298), (403, 298),
      (403, 298)] := by
    rw [← hp]
    exact List.mem_map_of_mem (fun q : Particle ℝ => (q.x, q.y)) hq
  simp only [List.mem_cons, Prod.mk.injEq, List.mem_singleton, List.not_mem_nil, or_false,
    or_self] at hm
  rw [hx] at hm
  norm_num at hm

/-! ### Euclidean distance -/

theorem dist_centre (o1 o2 : Circle ℝ) :
    dist o1.centre o2.centre =
      Real.sqrt ((o1.x - o2.x) * (o1.x - o2.x) + (o1.y - o2.y) * (o1.y - o2.y)) := by
  unfold Circle.centre
  rw [EuclideanSpace.dist_eq]
  congr 1
  simp [Fin.sum_univ_two, Real.dist_eq, sq_abs]
  ring

theorem checkCollision_eq_decide (H : Host ℝ) (hs : H.sqrt = Real.sqrt) (o1 o2 : Circle ℝ) :
    Game.checkCollision H o1 o2 = decide (dist o1.centre o2.centre < o1.radius + o2.radius) := by
  rw [dist_centre]
  unfold Game.checkCollision
  rw [hs]

/-- C3: with the exact square root, `checkCollision` returns true exactly when
the Euclidean distance between the centres is strictly below the sum of the
radii.  So a collectible whose centre (after its update) is at a distance from
the player's of at least the sum of the radii, the sum itself included, is not
collected when it is visited: score, collected and the particles stay. -/
theorem checkCollision_iff_distance (H : Host ℝ) (hs : H.sqrt = Real.sqrt) :
    (∀ o1 o2 : Circle ℝ, Game.checkCollision H o1 o2 = true ↔
      dist o1.centre o2.centre < o1.radius + o2.radius) ∧
    (∀ o1 o2 : Circle ℝ, dist o1.centre o2.centre = o1.radius + o2.radius →
      Game.checkCollision H o1 o2 = false) ∧
    (∀ (dt : ℝ) (g : Game ℝ) (b : Brainrot ℝ),
      g.player.radius + (b.update H dt).radius ≤
          dist g.player.circle.centre (b.update H dt).circle.centre →
        (g.visitBrainrot H dt b).score = g.score ∧
        (g.visitBrainrot H dt b).collected = g.collected ∧
        (g.visitBrainrot H dt b).particles = g.particles ∧
        (b ∈ g.brainrots → b.update H dt ∈ (g.visitBrainrot H dt b).brainrots)) := by
  refine ⟨fun o1 o2 => ?_, fun o1 o2 h => ?_, fun dt g b h => ?_⟩
  · rw [checkCollision_eq_decide H hs, decide_eq_true_iff]
  · rw [checkCollision_eq_decide H hs, h]
    simp
  · have hc : Game.checkCollision H g.player.circle (b.update H dt).circle = false := by
      rw [checkCollision_eq_decide H hs]
      simpa [Player.circle, Brainrot.circle] using h
    simp only [Game.visitBrainrot, hc, Bool.false_eq_true, if_false, true_and]
    exact fun hb => List.mem_map.2 ⟨b, hb, by simp⟩

/-- Witness for C3: radii 15 and 12 with centres exactly 27 apart do not collide. -/
theorem checkCollision_iff_distance_witness :
    Game.checkCollision ⟨Real.sqrt, Real.sin, Real.pi, fun _ => 0⟩
      (⟨0, 0, 15⟩ : Circle ℝ) ⟨27, 0, 12⟩ = false :=
  (checkCollision_iff_distance ⟨Real.sqrt, Real.sin, Real.pi, fun _ => 0⟩ rfl).2.1
    ⟨0, 0, 15⟩ ⟨27, 0, 12⟩ (by
      rw [dist_centre]
      norm_num
      rw [show (729 : ℝ) = 27 ^ 2 by norm_num]
      exact Real.sqrt_sq (by norm_num))

/-! ### Pursuit -/

theorem sqrt_after_step (dx dy s : ℝ) (h : 0 < Real.sqrt (dx * dx + dy * dy)) :
    Real.sqrt ((dx - dx / Real.sqrt (dx * dx + dy * dy) * s) *
        (dx - dx / Real.sqrt (dx * dx + dy * dy) * s) +
      (dy - dy / Real.sqrt (dx * dx + dy * dy) * s) *
        (dy - dy / Real.sqrt (dx * dx + dy * dy) * s)) =
      |Real.sqrt (dx * dx + dy * dy) - s| := by
  have hn : 0 ≤ dx * dx + dy * dy := by nlinarith [mul_self_nonneg dx, mul_self_nonneg dy]
  have hD2 : Real.sqrt (dx * dx + dy * dy) * Real.sqrt (dx * dx + dy * dy) = dx * dx + dy * dy :=
    Real.mul_self_sqrt hn
  generalize Real.sqrt (dx * dx + dy * dy) = D at h hD2
  have hne : D ≠ 0 := ne_of_gt h
  rw [← Real.sqrt_sq_eq_abs]
  congr 1
  field_simp
  have : dx * dx + dy * dy = D * D := hD2.symm
  nlinarith [this]

theorem dist_enemy_player (e : Enemy ℝ) (p : Player ℝ) :
    dist e.circle.centre p.circle.centre =
      Real.sqrt ((p.x - e.x) * (p.x - e.x) + (p.y - e.y) * (p.y - e.y)) := by
  rw [dist_comm, dist_centre]
  rfl

/-- One `Enemy.update` at positive distance `D` from the target: the new
distance is `|D - speed|`, and each coordinate moves a fraction `speed / D` of
the way to the target's. -/
theorem enemy_update_step (H : Host ℝ) (hs : H.sqrt = Real.sqrt) (p : Player ℝ) (dt : ℝ)
    (e : Enemy ℝ) (hpos : 0 < dist e.circle.centre p.circle.centre) :
    dist (e.update H p dt).circle.centre p.circle.centre =
      |dist e.circle.centre p.circle.centre - e.speed| ∧
    (e.update H p dt).x =
      e.x + (p.x - e.x) * (e.speed / dist e.circle.centre p.circle.centre) ∧
    (e.update H p dt).y =
      e.y + (p.y - e.y) * (e.speed / dist e.circle.centre p.circle.centre) ∧
    (e.update H p dt).speed = e.speed ∧ (e.update H p dt).radius = e.radius := by
  rw [dist_enemy_player, dist_enemy_player] at *
  have h := sqrt_after_step (p.x - e.x) (p.y - e.y) e.speed hpos
  simp only [Enemy.update, hs, gt_iff_lt, hpos, if_true]
  refine ⟨?_, by ring, by ring, trivial, trivial⟩
  rw [← h]
  congr 1
  ring

/-- The enemy started at the left edge, at height `y`, after `k` updates with
the player at (400,300), as long as `2 * k ≤ d - 23` for the starting distance
`d`: it is at distance `d - 2 * k`, between its start and the player. -/
theorem chase_from_left_edge (H : Host ℝ) (hs : H.sqrt = Real.sqrt) (ref : Nat) (y dt : ℝ)
    (hy0 : 0 ≤ y) (hy1 : y ≤ 600) (k : Nat)
    (hk : 2 * (k : ℝ) ≤
      dist (Enemy.new ref (-30) y).circle.centre (Player.new (400 : ℝ) 300).circle.centre - 23) :
    dist (Enemy.chase H (Player.new 400 300) dt (Enemy.new ref (-30) y) k).circle.centre
        (Player.new (400 : ℝ) 300).circle.centre =
      dist (Enemy.new ref (-30) y).circle.centre (Player.new (400 : ℝ) 300).circle.centre
        - 2 * k ∧
    (Enemy.chase H (Player.new 400 300) dt (Enemy.new ref (-30) y) k).speed = 2 ∧
    (Enemy.chase H (Player.new 400 300) dt (Enemy.new ref (-30) y) k).radius = 10 ∧
    -30 ≤ (Enemy.chase H (Player.new 400 300) dt (Enemy.new ref (-30) y) k).x ∧
    (Enemy.chase H (Player.new 400 300) dt (Enemy.new ref (-30) y) k).x ≤ 400 ∧
    0 ≤ (Enemy.chase H (Player.new 400 300) dt (Enemy.new ref (-30) y) k).y ∧
    (Enemy.chase H (Player.new 400 300) dt (Enemy.new ref (-30) y) k).y ≤ 600 := by
  induction k with
  | zero =>
    simp only [Enemy.chase, Function.iterate_zero, id_eq, Nat.cast_zero, mul_zero, sub_zero,
      Enemy.new, true_and]
    exact ⟨by norm_num, by norm_num, hy0, hy1⟩
  | succ k ih =>
    have hk1 : 2 * (k : ℝ) ≤
        dist (Enemy.new ref (-30) y).circle.centre (Player.new (400 : ℝ) 300).circle.centre
          - 25 := by
      push_cast at hk; linarith
    obtain ⟨i1, i2, i3, i4, i5, i6, i7⟩ := ih (by linarith)
    have hstep : Enemy.chase H (Player.new 400 300) dt (Enemy.new ref (-30) y) (k + 1) =
        (Enemy.chase H (Player.new 400 300) dt (Enemy.new ref (-30) y) k).update H
          (Player.new 400 300) dt := by
      unfold Enemy.chase
      rw [Function.iterate_succ_apply']
    generalize Enemy.chase H (Player.new 400 300) dt (Enemy.new ref (-30) y) k = e at *
    generalize dist (Enemy.new ref (-30) y).circle.centre
      (Player.new (400 : ℝ) 300).circle.centre = d0 at *
    have hD : 25 ≤ dist e.circle.centre (Player.new (400 : ℝ) 300).circle.centre := by
      rw [i1]; linarith
    obtain ⟨s1, s2, s3, s4, s5⟩ := enemy_update_step H hs (Player.new 400 300) dt e (by linarith)
    rw [hstep, s1, s2, s3, s4, s5, i2, i3]
    have ht0 : 0 ≤ 2 / dist e.circle.centre (Player.new (400 : ℝ) 300).circle.centre :=
      div_nonneg (by norm_num) (by linarith)
    have ht1 : 2 / dist e.circle.centre (Player.new (400 : ℝ) 300).circle.centre ≤ 1 := by
      rw [div_le_one (by linarith)]; linarith
    generalize 2 / dist e.circle.centre (Player.new (400 : ℝ) 300).circle.centre = t at *
    have px : (Player.new (400 : ℝ) 300).x = 400 := rfl
    have py : (Player.new (400 : ℝ) 300).y = 300 := rfl
    rw [px, py]
    refine ⟨?_, rfl, rfl, ?_, ?_, ?_, ?_⟩
    · rw [abs_of_nonneg (by linarith), i1]; push_cast; ring
    · nlinarith
    · nlinarith
    · nlinarith
    · nlinarith

theorem left_edge_distance (ref : Nat) (y : ℝ) :
    430 ≤ dist (Enemy.new ref (-30) y).circle.centre
      (Player.new (400 : ℝ) 300).circle.centre := by
  rw [dist_enemy_player, Real.le_sqrt' (by norm_num)]
  simp only [Enemy.new, Player.new]
  nlinarith [mul_self_nonneg (300 - y)]

/-- C9: an enemy spawned at the left edge (`x = -30`, `y` in `[0,600]`) of the
800 x 600 world, the player staying at (400,300), with the exact square root.
One `Enemy.update` of an enemy of speed 2 at distance at least 2 lowers the
Euclidean distance to the player by exactly 2.  The enemy first overlaps the
player at some update `N`; each update up to then lowers the distance by
exactly 2, hence strictly, and the enemy stays where the off-screen filter
keeps it. -/
theorem enemy_from_left_edge_approaches (H : Host ℝ) (hs : H.sqrt = Real.sqrt) (ref : Nat)
    (y dt : ℝ) (hy0 : 0 ≤ y) (hy1 : y ≤ 600) :
    (∀ (e : Enemy ℝ) (p : Player ℝ), e.speed = 2 →
      2 ≤ dist e.circle.centre p.circle.centre →
      dist (e.update H p dt).circle.centre p.circle.centre =
        dist e.circle.centre p.circle.centre - 2) ∧
    ∃ N : Nat, 1 ≤ N ∧
      Game.checkCollision H (Player.new (400 : ℝ) 300).circle
        (Enemy.chase H (Player.new 400 300) dt (Enemy.new ref (-30) y) N).circle = true ∧
      (∀ k, k < N → Game.checkCollision H (Player.new (400 : ℝ) 300).circle
        (Enemy.chase H (Player.new 400 300) dt (Enemy.new ref (-30) y) k).circle = false) ∧
      (∀ k, k < N →
        dist (Enemy.chase H (Player.new 400 300) dt (Enemy.new ref (-30) y) (k + 1)).circle.centre
            (Player.new (400 : ℝ) 300).circle.centre =
          dist (Enemy.chase H (Player.new 400 300) dt (Enemy.new ref (-30) y) k).circle.centre
            (Player.new (400 : ℝ) 300).circle.centre - 2 ∧
        dist (Enemy.chase H (Player.new 400 300) dt (Enemy.new ref (-30) y) (k + 1)).circle.centre
            (Player.new (400 : ℝ) 300).circle.centre <
          dist (Enemy.chase H (Player.new 400 300) dt (Enemy.new ref (-30) y) k).circle.centre
            (Player.new (400 : ℝ) 300).circle.centre) ∧
      (∀ k, k ≤ N →
        -50 < (Enemy.chase H (Player.new 400 300) dt (Enemy.new ref (-30) y) k).x ∧
        (Enemy.chase H (Player.new 400 300) dt (Enemy.new ref (-30) y) k).x < 800 + 50 ∧
        -50 < (Enemy.chase H (Player.new 400 300) dt (Enemy.new ref (-30) y) k).y ∧
        (Enemy.chase H (Player.new 400 300) dt (Enemy.new ref (-30) y) k).y < 600 + 50) := by
  constructor
  · intro e p he hd
    rw [(enemy_update_step H hs p dt e (by linarith)).1, he, abs_of_nonneg (by linarith)]
  have h0 := left_edge_distance ref y
  have hfl := Nat.floor_le (show (0 : ℝ) ≤
    (dist (Enemy.new ref (-30) y).circle.centre (Player.new (400 : ℝ) 300).circle.centre - 25) / 2
    by linarith)
  have hlt := Nat.lt_floor_add_one
    ((dist (Enemy.new ref (-30) y).circle.centre (Player.new (400 : ℝ) 300).circle.centre - 25) / 2)
  have hch := chase_from_left_edge H hs ref y dt hy0 hy1
  generalize ⌊(dist (Enemy.new ref (-30) y).circle.centre
    (Player.new (400 : ℝ) 300).circle.centre - 25) / 2⌋₊ = M at hfl hlt
  have hcol : ∀ e : Enemy ℝ, e.radius = 10 →
      Game.checkCollision H (Player.new (400 : ℝ) 300).circle e.circle =
        decide (dist e.circle.centre (Player.new (400 : ℝ) 300).circle.centre < 25) := by
    intro e he
    rw [checkCollision_eq_decide H hs, dist_comm]
    simp only [Player.circle, Player.new, Enemy.circle, he]
    norm_num
  have hbelow : ∀ k : Nat, k ≤ M → 2 * (k : ℝ) ≤
      dist (Enemy.new ref (-30) y).circle.centre (Player.new (400 : ℝ) 300).circle.centre
        - 25 := by
    intro k hk
    have : (k : ℝ) ≤ M := by exact_mod_cast hk
    linarith
  refine ⟨M + 1, Nat.le_add_left 1 M, ?_, ?_, ?_, ?_⟩
  · obtain ⟨c1, -, c3, -⟩ := hch (M + 1) (by push_cast; linarith)
    rw [hcol _ c3, c1, decide_eq_true_iff]
    push_cast
    linarith
  · intro k hk
    obtain ⟨c1, -, c3, -⟩ := hch k (by linarith [hbelow k (Nat.lt_succ_iff.1 hk)])
    rw [hcol _ c3, c1, decide_eq_false_iff_not, not_lt]
    linarith [hbelow k (Nat.lt_succ_iff.1 hk)]
  · intro k hk
    have hb := hbelow k (Nat.lt_succ_iff.1 hk)
    obtain ⟨c1, -⟩ := hch k (by linarith)
    obtain ⟨d1, -⟩ := hch (k + 1) (by push_cast; linarith)
    rw [c1, d1]
    push_cast
    constructor
    · ring
    · linarith
  · intro k hk
    have hk1 : (k : ℝ) ≤ M + 1 := by exact_mod_cast hk
    obtain ⟨-, -, -, c4, c5, c6, c7⟩ := hch k (by linarith)
    refine ⟨by linarith, by linarith, by linarith, by linarith⟩

/-- Witness for C9: the enemy spawned at (-30,300). -/
theorem enemy_from_left_edge_approaches_witness :
    ∃ N : Nat, 1 ≤ N ∧
      Game.checkCollision ⟨Real.sqrt, Real.sin, Real.pi, fun _ => 0⟩
        (Player.new (400 : ℝ) 300).circle
        (Enemy.chase ⟨Real.sqrt, Real.sin, Real.pi, fun _ => 0⟩ (Player.new 400 300) 16
          (Enemy.new 0 (-30) 300) N).circle = true :=
  have h := (enemy_from_left_edge_approaches ⟨Real.sqrt, Real.sin, Real.pi, fun _ => 0⟩ rfl 0
    300 16 (by norm_num) (by norm_num)).2
  h.imp fun _ hN => ⟨hN.1, hN.2.1⟩

/-! ### Re-initialisation -/

theorem Game.create_eq [FloorRing α] (H : Host α) (width height : α) :
    Game.create H width height =
      { Game.new width height with
        player := (Player.new (width / 2) (height / 2)).update width height } := by
  have h1 : ¬ ((0 : α) > 2000) := by norm_num
  have h2 : ¬ ((0 : α) > 3000) := by norm_num
  have h3 : ¬ ((100 : α) ≤ 0) := by norm_num
  simp only [Game.create, Game.gameLoop, Game.update, Game.beforeLoops, Game.movePlayer,
    Game.tickBrainrotTimer, Game.tickEnemyTimer, Game.new, Keys.none, Game.updateBrainrots,
    Game.updateEnemies, Game.removeOffscreen, Game.updateParticles, Game.checkGameOver,
    List.foldl_nil, List.map_nil, List.filter_nil, Bool.or_self, Bool.false_eq_true, if_false,
    sub_self, add_zero, h1, h2, h3]

/-- C11: the state the constructor leaves, which is what a reload after
`gameOver` starts from: score 0, health 100, collected 0, no collectibles,
enemies or particles and both spawn timers 0, before its call of `gameLoop` and
after it (a frame with `deltaTime = 0`). -/
theorem constructor_initial_state [FloorRing α] (H : Host α) (width height : α) :
    ((Game.new width height).score = 0 ∧ (Game.new width height).health = 100 ∧
      (Game.new width height).collected = 0 ∧ (Game.new width height).brainrots = [] ∧
      (Game.new width height).enemies = [] ∧ (Game.new width height).particles = [] ∧
      (Game.new width height).brainrotSpawnTimer = 0 ∧
      (Game.new width height).enemySpawnTimer = 0) ∧
    Game.create H width height = (Game.new width height).update H 0 ∧
    (Game.create H width height).score = 0 ∧ (Game.create H width height).health = 100 ∧
    (Game.create H width height).collected = 0 ∧ (Game.create H width height).brainrots = [] ∧
    (Game.create H width height).enemies = [] ∧ (Game.create H width height).particles = [] ∧
    (Game.create H width height).brainrotSpawnTimer = 0 ∧
    (Game.create H width height).enemySpawnTimer = 0 ∧
    (Game.create H width height).gameOverCalls = 0 := by
  refine ⟨⟨rfl, rfl, rfl, rfl, rfl, rfl, rfl, rfl⟩, ?_, ?_⟩
  · simp [Game.create, Game.gameLoop, Game.new]
  · rw [Game.create_eq]
    exact ⟨rfl, rfl, rfl, rfl, rfl, rfl, rfl, rfl, rfl⟩

/-! ### Game over -/

theorem Game.beforeLoops_gameOverCalls [FloorRing α] (H : Host α) (dt : α) (g : Game α) :
    (g.beforeLoops H dt).gameOverCalls = g.gameOverCalls := by
  unfold Game.beforeLoops Game.tickEnemyTimer Game.spawnEnemy
  dsimp only
  have hb : (g.movePlayer.tickBrainrotTimer H dt).gameOverCalls = g.gameOverCalls := by
    unfold Game.tickBrainrotTimer Game.spawnBrainrot Game.movePlayer
    dsimp only
    split <;> rfl
  split <;> exact hb

/-- The call of `gameOver` at the end of `update`. -/
theorem Game.update_gameOverCalls [FloorRing α] (H : Host α) (dt : α) (g : Game α) :
    (g.update H dt).gameOverCalls =
      if (g.update H dt).health ≤ 0 then g.gameOverCalls + 1 else g.gameOverCalls := by
  have hc : ((((g.beforeLoops H dt).updateBrainrots H dt).updateEnemies H dt
      ).removeOffscreen.updateParticles dt).gameOverCalls = g.gameOverCalls := by
    simp only [Game.updateParticles, Game.removeOffscreen]
    rw [(Game.updateEnemies_same H dt _).2.2.2.2.2.2.2.2.2.2.2.2.2,
      (Game.updateBrainrots_same H dt _).2.2.2.2.2.2.2.2.2.2, Game.beforeLoops_gameOverCalls]
  unfold Game.update Game.checkGameOver Game.gameOver
  split
  · rw [← hc]
  · rw [← hc]

/-- C14: from every reachable state, `update` calls `gameOver` exactly when
health is 0 after the call's collisions; health is not touched after the loop
over the enemies, and `gameOver` is called at most once. -/
theorem update_gameOver_iff [FloorRing α] (H : Host α) (dt : α) (g : Game α)
    (hg : Game.Reachable H g) :
    ((g.update H dt).gameOverCalls = g.gameOverCalls + 1 ↔ (g.update H dt).health = 0) ∧
    ((g.update H dt).gameOverCalls = g.gameOverCalls ↔ (g.update H dt).health ≠ 0) ∧
    (g.update H dt).health =
      (((g.beforeLoops H dt).updateBrainrots H dt).updateEnemies H dt).health := by
  have h0 : 0 ≤ (g.update H dt).health :=
    (Game.update_inv H dt g (Game.Reachable.inv H g hg)).1.1
  have hc := Game.update_gameOverCalls H dt g
  refine ⟨?_, ?_, (Game.update_fields H dt g).2.2.2.2.2.1⟩
  · constructor
    · intro h
      by_cases hz : (g.update H dt).health ≤ 0
      · exact le_antisymm hz h0
      · rw [if_neg hz] at hc
        omega
    · intro h
      rw [hc, if_pos (le_of_eq h)]
  · constructor
    · intro h hz
      rw [if_pos (le_of_eq hz)] at hc
      omega
    · intro h
      rw [hc, if_neg (fun hz => h (le_antisymm hz h0))]

/-- Witness for C14: the 800 x 600 game after a frame of 3001 ms. -/
theorem update_gameOver_iff_witness :
    (((Game.new (800 : ℚ) 600).update Host.approx 3001).update Host.approx 16).gameOverCalls =
        ((Game.new (800 : ℚ) 600).update Host.approx 3001).gameOverCalls + 1 ↔
      (((Game.new (800 : ℚ) 600).update Host.approx 3001).update Host.approx 16).health = 0 :=
  (update_gameOver_iff Host.approx 16 ((Game.new (800 : ℚ) 600).update Host.approx 3001)
    (Game.Reachable.update 3001 _ (Game.Reachable.new 800 600))).1

/-! ### Particles -/

theorem particle_after_life (dts : List α) (p : Particle α) (hd : p.decay = 0.02) :
    (Particle.after dts p).life = p.life - 0.02 * (dts.length : α) ∧
    (Particle.after dts p).decay = 0.02 := by
  unfold Particle.after
  induction dts generalizing p with
  | nil => simp [hd]
  | cons dt dts ih =>
    rw [List.foldl_cons]
    obtain ⟨h1, h2⟩ := ih (p.update dt) hd
    rw [h1, h2]
    simp only [Particle.update, hd, List.length_cons, Nat.cast_add, Nat.cast_one]
    exact ⟨by ring, trivial⟩

/-- C16: in exact arithmetic a particle built by the constructor has life
`1 - 0.02 * k` after `k` updates, whatever the `deltaTime`s; it passes the
filter `life > 0` exactly while `k < 50`, so after each of its first 49 updates
and not after the 50th; and after `update` every particle in the array has
positive life, the array being the updated particles that pass the filter. -/
theorem particle_life_and_removal [FloorRing α] (x y : α) (color : String) (r0 r1 r2 : α)
    (dts : List α) :
    (Particle.after dts (Particle.new x y color r0 r1 r2)).life =
      1 - 0.02 * (dts.length : α) ∧
    (decide ((Particle.after dts (Particle.new x y color r0 r1 r2)).life > 0) = true ↔
      dts.length < 50) ∧
    (∀ (H : Host α) (dt : α) (g : Game α),
      (g.update H dt).particles =
        (((g.beforeLoops H dt).updateBrainrots H dt).particles.map (Particle.update dt)).filter
          (fun particle => decide (particle.life > 0)) ∧
      ∀ q ∈ (g.update H dt).particles, 0 < q.life) := by
  have hl := (particle_after_life dts (Particle.new x y color r0 r1 r2) rfl).1
  have hl1 : (Particle.after dts (Particle.new x y color r0 r1 r2)).life =
      1 - 0.02 * (dts.length : α) := by rw [hl]; rfl
  refine ⟨hl1, ?_, fun H dt g => ⟨Game.update_particles H dt g, fun q hq => ?_⟩⟩
  · rw [decide_eq_true_iff, hl1]
    constructor
    · intro h
      have h2 : (dts.length : α) < 50 := by
        by_contra hc
        have := not_lt.1 hc
        norm_num at h
        linarith
      exact_mod_cast h2
    · intro h
      have h2 : (dts.length : α) < 50 := by exact_mod_cast h
      norm_num
      linarith
  · rw [Game.update_particles] at hq
    simpa using (List.mem_filter.1 hq).2

/-! ### What `Brainrot.update` leaves alone -/

/-- C17: `Brainrot.update` returns the collectible with only `bobOffset`, `y`
and `mutationHue` replaced, the last only for a mutated collectible; rarity,
points, radius, color, hasGlow, x and originalY are as before.  Every
collectible in the array after `update` is the updated self of one that was
in it when the loop started, with the same rarity and points. -/
theorem brainrot_update_frame [FloorRing α] (H : Host α) (dt : α) (b : Brainrot α) :
    b.update H dt =
      { b with bobOffset := (b.update H dt).bobOffset, y := (b.update H dt).y
               mutationHue := (b.update H dt).mutationHue } ∧
    (b.update H dt).rarity = b.rarity ∧ (b.update H dt).points = b.points ∧
    (b.update H dt).radius = b.radius ∧ (b.update H dt).color = b.color ∧
    (b.update H dt).hasGlow = b.hasGlow ∧ (b.update H dt).x = b.x ∧
    (b.update H dt).originalY = b.originalY ∧
    (b.update H dt).mutationHue =
      (if b.isMutated then
        b.mutationHue.map fun hue => if hue + 0.01 > 360 then 0 else hue + 0.01
       else b.mutationHue) ∧
    (∀ g : Game α, ∀ c ∈ (g.update H dt).brainrots,
      ∃ b0 ∈ (g.beforeLoops H dt).brainrots,
        c = b0.update H dt ∧ c.rarity = b0.rarity ∧ c.points = b0.points) := by
  have hframe : ∀ b0 : Brainrot α,
      b0.update H dt =
        { b0 with bobOffset := (b0.update H dt).bobOffset, y := (b0.update H dt).y
                  mutationHue := (b0.update H dt).mutationHue } ∧
      (b0.update H dt).rarity = b0.rarity ∧ (b0.update H dt).points = b0.points ∧
      (b0.update H dt).radius = b0.radius ∧ (b0.update H dt).color = b0.color ∧
      (b0.update H dt).hasGlow = b0.hasGlow ∧ (b0.update H dt).x = b0.x ∧
      (b0.update H dt).originalY = b0.originalY ∧
      (b0.update H dt).mutationHue =
        (if b0.isMutated then
          b0.mutationHue.map fun hue => if hue + 0.01 > 360 then 0 else hue + 0.01
         else b0.mutationHue) := by
    intro b0
    unfold Brainrot.update
    dsimp only
    split <;> exact ⟨rfl, rfl, rfl, rfl, rfl, rfl, rfl, rfl, rfl⟩
  obtain ⟨f1, f2, f3, f4, f5, f6, f7, f8, f9⟩ := hframe b
  refine ⟨f1, f2, f3, f4, f5, f6, f7, f8, f9, fun g c hc => ?_⟩
  obtain ⟨b0, hb0, rfl⟩ := Game.update_brainrots_updated H dt g c hc
  exact ⟨b0, hb0, rfl, (hframe b0).2.1, (hframe b0).2.2.1⟩

/-! ### The enemy's step -/

theorem dist_enemy_player_pos_iff (e : Enemy ℝ) (p : Player ℝ) :
    0 < dist e.circle.centre p.circle.centre ↔ ¬ (e.x = p.x ∧ e.y = p.y) := by
  rw [dist_enemy_player, Real.sqrt_pos]
  have hn : 0 ≤ (p.x - e.x) * (p.x - e.x) + (p.y - e.y) * (p.y - e.y) :=
    add_nonneg (mul_self_nonneg _) (mul_self_nonneg _)
  constructor
  · rintro h ⟨hx, hy⟩
    rw [hx, hy] at h
    simp at h
  · intro h
    rcases lt_or_eq_of_le hn with h1 | h1
    · exact h1
    · exfalso
      apply h
      obtain ⟨hx, hy⟩ := (mul_self_add_mul_self_eq_zero.1 h1.symm)
      exact ⟨by linarith, by linarith⟩

theorem enemy_update_still (H : Host ℝ) (hs : H.sqrt = Real.sqrt) (p : Player ℝ) (dt : ℝ)
    (e : Enemy ℝ) (h0 : ¬ 0 < dist e.circle.centre p.circle.centre) :
    e.update H p dt = { e with angle := e.angle + 0.1 } := by
  rw [dist_enemy_player] at h0
  simp only [Enemy.update, hs, gt_iff_lt, h0, if_false]

/-- With any square root whatever, the checked method never fails and returns
what `Enemy.update` returns: the test `distance > 0` lets a division through
only when its divisor is not zero. -/
theorem Enemy.updateChecked_eq_some (H : Host α) (p : Player α) (dt : α) (e : Enemy α) :
    Enemy.updateChecked H p dt e = some (Enemy.update H p dt e) := by
  unfold Enemy.updateChecked Enemy.update
  dsimp only
  by_cases h : H.sqrt ((p.x - e.x) * (p.x - e.x) + (p.y - e.y) * (p.y - e.y)) > 0
  · have hne : H.sqrt ((p.x - e.x) * (p.x - e.x) + (p.y - e.y) * (p.y - e.y)) ≠ 0 :=
      ne_of_gt h
    simp only [h, if_true, jsDiv, hne, if_false, Option.some_bind, Option.map_some']
  · simp only [h, if_false, Option.map_some']

/-- C15: `Enemy.update` never divides by zero: with its divisions checked it
returns, for every square root function, the same enemy and never a failure.
With the exact square root, an enemy at its target's position is at distance
0, where the quotient `dx / distance` would be a division by zero; the method
does not evaluate it and returns the enemy with only `angle` advanced by 0.1,
`x` and `y` as they were.  Any other enemy is at positive distance `D` and
moves by `speed` times the vector `(dx / D, dy / D)`, which has length 1 and
points to the target: the move has length `|speed|`, which is 2 for the
constructor's speed; `angle` advances by 0.1 as well. -/
theorem enemy_update_guarded (H : Host ℝ) (hs : H.sqrt = Real.sqrt) (p : Player ℝ) (dt : ℝ)
    (e : Enemy ℝ) :
    (∀ H1 : Host ℝ, Enemy.updateChecked H1 p dt e = some (Enemy.update H1 p dt e)) ∧
    (e.x = p.x ∧ e.y = p.y →
      dist e.circle.centre p.circle.centre = 0 ∧
      jsDiv (p.x - e.x) (dist e.circle.centre p.circle.centre) = none ∧
      jsDiv (p.y - e.y) (dist e.circle.centre p.circle.centre) = none ∧
      Enemy.updateChecked H p dt e = some { e with angle := e.angle + 0.1 } ∧
      e.update H p dt = { e with angle := e.angle + 0.1 }) ∧
    (¬ (e.x = p.x ∧ e.y = p.y) →
      0 < dist e.circle.centre p.circle.centre ∧
      Enemy.updateChecked H p dt e =
        some { e with
          x := e.x + (p.x - e.x) / dist e.circle.centre p.circle.centre * e.speed
          y := e.y + (p.y - e.y) / dist e.circle.centre p.circle.centre * e.speed
          angle := e.angle + 0.1 } ∧
      e.update H p dt =
        { e with
          x := e.x + (p.x - e.x) / dist e.circle.centre p.circle.centre * e.speed
          y := e.y + (p.y - e.y) / dist e.circle.centre p.circle.centre * e.speed
          angle := e.angle + 0.1 } ∧
      ((p.x - e.x) / dist e.circle.centre p.circle.centre) ^ 2 +
        ((p.y - e.y) / dist e.circle.centre p.circle.centre) ^ 2 = 1 ∧
      dist (e.update H p dt).circle.centre e.circle.centre = |e.speed| ∧
      (e.speed = 2 → dist (e.update H p dt).circle.centre e.circle.centre = 2)) := by
  refine ⟨fun H1 => Enemy.updateChecked_eq_some H1 p dt e, ?_, ?_⟩
  · intro h
    have h0 : ¬ 0 < dist e.circle.centre p.circle.centre := by
      rw [dist_enemy_player_pos_iff]; exact not_not.2 h
    have hz : dist e.circle.centre p.circle.centre = 0 := le_antisymm (not_lt.1 h0) dist_nonneg
    have hu := enemy_update_still H hs p dt e h0
    refine ⟨hz, ?_, ?_, ?_, hu⟩
    · rw [hz]; simp [jsDiv]
    · rw [hz]; simp [jsDiv]
    · rw [Enemy.updateChecked_eq_some, hu]
  · intro h
    have hpos := (dist_enemy_player_pos_iff e p).2 h
    have hupd : e.update H p dt =
        { e with
          x := e.x + (p.x - e.x) / dist e.circle.centre p.circle.centre * e.speed
          y := e.y + (p.y - e.y) / dist e.circle.centre p.circle.centre * e.speed
          angle := e.angle + 0.1 } := by
      have hpos1 := hpos
      rw [dist_enemy_player] at hpos1 ⊢
      simp only [Enemy.update, hs, gt_iff_lt, hpos1, if_true]
    have hD2 : dist e.circle.centre p.circle.centre * dist e.circle.centre p.circle.centre =
        (p.x - e.x) * (p.x - e.x) + (p.y - e.y) * (p.y - e.y) := by
      rw [dist_enemy_player]
      exact Real.mul_self_sqrt (add_nonneg (mul_self_nonneg _) (mul_self_nonneg _))
    have hne : dist e.circle.centre p.circle.centre ≠ 0 := ne_of_gt hpos
    have hunit : ((p.x - e.x) / dist e.circle.centre p.circle.centre) ^ 2 +
        ((p.y - e.y) / dist e.circle.centre p.circle.centre) ^ 2 = 1 := by
      field_simp
      nlinarith [hD2]
    have hmove : dist (e.update H p dt).circle.centre e.circle.centre = |e.speed| := by
      rw [hupd, dist_centre, ← Real.sqrt_sq_eq_abs]
      congr 1
      generalize dist e.circle.centre p.circle.centre = D at hunit ⊢
      simp only [Enemy.circle]
      linear_combination e.speed ^ 2 * hunit
    refine ⟨hpos, ?_, hupd, hunit, hmove, fun h2 => ?_⟩
    · rw [Enemy.updateChecked_eq_some, hupd]
    · rw [hmove, h2]
      norm_num

/-- Witness for C15: an enemy at the player's position (400,300); the checked
method returns it with only `angle` advanced. -/
theorem enemy_update_guarded_witness :
    Enemy.updateChecked ⟨Real.sqrt, Real.sin, Real.pi, fun _ => 0⟩ (Player.new 400 300) 16
        (Enemy.new 0 (400 : ℝ) 300) =
      some { Enemy.new 0 (400 : ℝ) 300 with angle := (Enemy.new 0 (400 : ℝ) 300).angle + 0.1 } :=
  ((enemy_update_guarded ⟨Real.sqrt, Real.sin, Real.pi, fun _ => 0⟩ rfl (Player.new 400 300) 16
    (Enemy.new 0 (400 : ℝ) 300)).2.1 ⟨rfl, rfl⟩).2.2.2.1

/-! ### All overlapping collectibles are collected -/

/-- C12: when the collectibles are pairwise different objects, `update` collects
every one that overlaps the player, each once.  The array after the call is
the array at the start of the loop, in its order, without the collectibles that
overlap the player once updated (the others updated); collected has grown by
the number of those and score by the sum of their points.  The walk goes over
the array the loop started with, so reassigning `this.brainrots` inside the
callback skips nothing. -/
theorem update_collects_all [FloorRing α] (H : Host α) (dt : α) (g : Game α)
    (hn : ((g.beforeLoops H dt).brainrots.map Brainrot.ref).Nodup) :
    (g.update H dt).brainrots =
      ((g.beforeLoops H dt).brainrots.filter
        fun b => !Game.overlapsBrainrot H dt (g.beforeLoops H dt).player b).map
          (Brainrot.update H dt) ∧
    g.collectedNow H dt =
      (g.beforeLoops H dt).brainrots.filter
        (Game.overlapsBrainrot H dt (g.beforeLoops H dt).player) ∧
    (g.update H dt).collected = g.collected + ((g.collectedNow H dt).length : α) ∧
    (g.update H dt).score = g.score + ((g.collectedNow H dt).map Brainrot.points).sum ∧
    (g.update H dt).brainrots.length + (g.collectedNow H dt).length =
      (g.beforeLoops H dt).brainrots.length := by
  obtain ⟨hs, hc⟩ := Game.update_counters H dt g
  have hb : (g.update H dt).brainrots =
      ((g.beforeLoops H dt).brainrots.filter
        fun b => !Game.overlapsBrainrot H dt (g.beforeLoops H dt).player b).map
          (Brainrot.update H dt) := by
    rw [(Game.update_fields H dt g).2.2.2.2.2.2.1, Game.updateBrainrots_brainrots H dt _ hn]
  refine ⟨hb, rfl, hc, hs, ?_⟩
  rw [hb, List.length_map, Game.collectedNow, add_comm]
  exact List.length_eq_length_filter_add _ |>.symm

theorem scenarioThree_beforeLoops [FloorRing α] (H : Host α) :
    (Game.scenarioThree : Game α).beforeLoops H 0 = Game.scenarioThree := by
  have h1 : ¬ ((0 : α) > 2000) := by norm_num
  have h2 : ¬ ((0 : α) > 3000) := by norm_num
  have hx : max (15 : α) (min (800 - 15) (800 / 2)) = 800 / 2 := by
    rw [min_eq_right (by norm_num), max_eq_right (by norm_num)]
  have hy : max (15 : α) (min (600 - 15) (600 / 2)) = 600 / 2 := by
    rw [min_eq_right (by norm_num), max_eq_right (by norm_num)]
  simp only [Game.beforeLoops, Game.movePlayer, Game.tickBrainrotTimer, Game.tickEnemyTimer,
    Game.scenarioThree, Game.new, Keys.none, Player.update, Player.new, Bool.or_self,
    Bool.false_eq_true, if_false, h1, h2, hx, hy, add_zero]

theorem scenarioThree_overlaps :
    Game.overlapsBrainrot ⟨Real.sqrt, Real.sin, Real.pi, fun _ => 0⟩ (0 : ℝ)
      (Game.scenarioThree : Game ℝ).player
      { ref := 0, x := 405, y := 300, radius := 12, bobOffset := 0, bobSpeed := 0.003
        originalY := 300, rarity := Rarity.common, color := "#9e9e9e", points := 10
        hasGlow := false, isMutated := false, mutationHue := none } = true ∧
    Game.overlapsBrainrot ⟨Real.sqrt, Real.sin, Real.pi, fun _ => 0⟩ (0 : ℝ)
      (Game.scenarioThree : Game ℝ).player
      { ref := 1, x := 370, y := 260, radius := 12, bobOffset := 0, bobSpeed := 0.003
        originalY := 260, rarity := Rarity.uncommon, color := "#4caf50", points := 25
        hasGlow := false, isMutated := false, mutationHue := none } = false ∧
    Game.overlapsBrainrot ⟨Real.sqrt, Real.sin, Real.pi, fun _ => 0⟩ (0 : ℝ)
      (Game.scenarioThree : Game ℝ).player
      { ref := 2, x := 395, y := 300, radius := 12, bobOffset := 0, bobSpeed := 0.003
        originalY := 300, rarity := Rarity.rare, color := "#2196f3", points := 50
        hasGlow := true, isMutated := false, mutationHue := none } = true := by
  have hsq : Real.sqrt 25 = 5 := by
    rw [show (25 : ℝ) = 5 ^ 2 by norm_num]
    exact Real.sqrt_sq (by norm_num)
  have hsq2 : Real.sqrt 2500 = 50 := by
    rw [show (2500 : ℝ) = 50 ^ 2 by norm_num]
    exact Real.sqrt_sq (by norm_num)
  refine ⟨?_, ?_, ?_⟩ <;>
    simp [Game.overlapsBrainrot, Brainrot.update, Game.checkCollision, Player.circle,
      Brainrot.circle, Game.scenarioThree, Game.new, Player.new] <;>
    norm_num [hsq, hsq2]

/-- Witness for C12: of three collectibles the first and the third overlap the
player; after one call the second alone is left, collected is 2 and score 60. -/
theorem update_collects_all_witness :
    (((Game.scenarioThree : Game ℝ).update
      ⟨Real.sqrt, Real.sin, Real.pi, fun _ => 0⟩ 0).brainrots.map Brainrot.ref) = [1] ∧
    ((Game.scenarioThree : Game ℝ).update
      ⟨Real.sqrt, Real.sin, Real.pi, fun _ => 0⟩ 0).collected = 2 ∧
    ((Game.scenarioThree : Game ℝ).update
      ⟨Real.sqrt, Real.sin, Real.pi, fun _ => 0⟩ 0).score = 60 := by
  obtain ⟨h1, h2, h3, h4, -⟩ :=
    update_collects_all ⟨Real.sqrt, Real.sin, Real.pi, fun _ => 0⟩ 0
      (Game.scenarioThree : Game ℝ) (by rw [scenarioThree_beforeLoops]; simp [Game.scenarioThree])
  obtain ⟨o0, o1, o2⟩ := scenarioThree_overlaps
  rw [scenarioThree_beforeLoops] at h1 h2
  have hl : (Game.scenarioThree : Game ℝ).brainrots = [_, _, _] := rfl
  rw [hl] at h1 h2
  simp only [List.filter_cons, List.filter_nil, o0, o1, o2, Bool.not_true, Bool.not_false,
    if_true, if_false, Bool.false_eq_true] at h1 h2
  rw [h2] at h3 h4
  refine ⟨?_, ?_, ?_⟩
  · rw [h1]
    simp [brainrot_update_ref]
  · rw [h3]
    norm_num [Game.scenarioThree, Game.new]
  · rw [h4]
    norm_num [Game.scenarioThree, Game.new]

/-! ### The array of enemies after the loop -/

theorem map_replace_of_enemy_ref_ne {β : Type} (e u : Enemy β) (l : List (Enemy β))
    (h : ∀ c ∈ l, c.ref ≠ e.ref) :
    l.map (fun c => if c.ref = e.ref then u else c) = l := by
  induction l with
  | nil => rfl
  | cons c l ih =>
    rw [List.map_cons, if_neg (h c (List.mem_cons_self _ _)),
      ih (fun d hd => h d (List.mem_cons_of_mem _ hd))]

theorem filter_enemy_ref_ne {β : Type} (e : Enemy β) (l : List (Enemy β))
    (h : ∀ c ∈ l, c.ref ≠ e.ref) :
    l.filter (fun c => decide (c.ref ≠ e.ref)) = l := by
  rw [List.filter_eq_self]
  intro c hc
  simpa using h c hc

/-- One visit of an enemy that sits in the array between objects of other
identities: it is replaced by its updated self, and dropped when it overlaps
the player. -/
theorem Game.visitEnemy_enemies (H : Host α) (dt : α) (g : Game α) (e : Enemy α)
    (done rest : List (Enemy α)) (hg : g.enemies = done ++ e :: rest)
    (hd : ∀ c ∈ done, c.ref ≠ e.ref) (hr : ∀ c ∈ rest, c.ref ≠ e.ref) :
    (g.visitEnemy H dt e).enemies =
      if Game.overlapsEnemy H dt g.player e then done ++ rest
      else done ++ e.update H g.player dt :: rest := by
  have hm : g.enemies.map (fun c => if c.ref = e.ref then e.update H g.player dt else c) =
      done ++ e.update H g.player dt :: rest := by
    rw [hg, List.map_append, List.map_cons, map_replace_of_enemy_ref_ne e _ done hd,
      map_replace_of_enemy_ref_ne e _ rest hr, if_pos rfl]
  unfold Game.visitEnemy Game.takeDamage Game.overlapsEnemy
  dsimp only
  rw [hm]
  split
  · rw [List.filter_append, List.filter_cons, filter_enemy_ref_ne e done hd,
      filter_enemy_ref_ne e rest hr]
    simp [enemy_update_ref]
  · rfl

theorem Game.visitEnemy_player (H : Host α) (dt : α) (g : Game α) (e : Enemy α) :
    (g.visitEnemy H dt e).player = g.player :=
  (Game.visitEnemy_same H dt g g e
    ⟨rfl, rfl, rfl, rfl, rfl, rfl, rfl, rfl, rfl, rfl, rfl, rfl, rfl, rfl⟩).2.2.1

/-- The array of enemies after the loop, when the walked objects have pairwise
different identities: the enemies that do not overlap the player once updated,
updated, in their order. -/
theorem Game.foldl_visitEnemy_enemies (H : Host α) (dt : α) (l : List (Enemy α)) :
    ∀ (g : Game α) (done : List (Enemy α)), g.enemies = done ++ l →
      ((done ++ l).map Enemy.ref).Nodup →
      (l.foldl (Game.visitEnemy H dt) g).enemies =
        done ++ (l.filter fun e => !Game.overlapsEnemy H dt g.player e).map
          (Enemy.update H g.player dt) := by
  induction l with
  | nil => intro g done hg _; simpa using hg
  | cons e l ih =>
    intro g done hg hn
    rw [List.map_append, List.map_cons, List.nodup_append] at hn
    obtain ⟨hn1, hn2, hn3⟩ := hn
    have hd : ∀ c ∈ done, c.ref ≠ e.ref := fun c hc he =>
      hn3 (List.mem_map_of_mem _ hc) (he ▸ List.mem_cons_self _ _)
    have hr : ∀ c ∈ l, c.ref ≠ e.ref := fun c hc he =>
      (List.nodup_cons.1 hn2).1 (he ▸ List.mem_map_of_mem _ hc)
    have hv := Game.visitEnemy_enemies H dt g e done l hg hd hr
    have hp := Game.visitEnemy_player H dt g e
    rw [List.foldl_cons]
    by_cases hc : Game.overlapsEnemy H dt g.player e = true
    · rw [if_pos hc] at hv
      rw [ih _ done hv, hp, List.filter_cons, hc]
      · rfl
      · rw [List.map_append, List.nodup_append]
        exact ⟨hn1, (List.nodup_cons.1 hn2).2, fun x hx hy => hn3 hx (List.mem_cons_of_mem _ hy)⟩
    · rw [if_neg hc] at hv
      have hc1 : Game.overlapsEnemy H dt g.player e = false := by simpa using hc
      rw [ih _ (done ++ [e.update H g.player dt]) (by rw [hv]; simp), hp, List.filter_cons, hc1]
      · simp
      · simp only [List.map_append, List.map_cons, List.map_nil, enemy_update_ref,
          List.append_assoc, List.singleton_append]
        rw [List.nodup_append]
        exact ⟨hn1, hn2, hn3⟩

theorem Game.updateEnemies_enemies (H : Host α) (dt : α) (g : Game α)
    (hn : (g.enemies.map Enemy.ref).Nodup) :
    (g.updateEnemies H dt).enemies =
      (g.enemies.filter fun e => !Game.overlapsEnemy H dt g.player e).map
        (Enemy.update H g.player dt) := by
  have h := Game.foldl_visitEnemy_enemies H dt g.enemies g [] rfl hn
  simpa using h

/-- The array of enemies after `update`: what the loop leaves, through the
off-screen filter. -/
theorem Game.update_enemies [FloorRing α] (H : Host α) (dt : α) (g : Game α) :
    (g.update H dt).enemies =
      (((g.beforeLoops H dt).updateBrainrots H dt).updateEnemies H dt).removeOffscreen.enemies ∧
    ((g.beforeLoops H dt).updateBrainrots H dt).enemies = (g.beforeLoops H dt).enemies ∧
    ((g.beforeLoops H dt).updateBrainrots H dt).player = (g.beforeLoops H dt).player ∧
    ((g.beforeLoops H dt).updateBrainrots H dt).nextRef = (g.beforeLoops H dt).nextRef := by
  obtain ⟨-, -, -, -, c5, -⟩ := Game.checkGameOver_fields
    ((((g.beforeLoops H dt).updateBrainrots H dt).updateEnemies H dt
      ).removeOffscreen.updateParticles dt)
  obtain ⟨-, -, b3, b4, -, -, -, -, -, b10, -⟩ :=
    Game.updateBrainrots_same H dt (g.beforeLoops H dt)
  refine ⟨?_, b4, b3, b10⟩
  unfold Game.update
  rw [c5]
  rfl

/-! ### Distinct enemies -/

theorem Game.beforeLoops_distinctEnemies [FloorRing α] (H : Host α) (dt : α) (g : Game α)
    (h : g.DistinctEnemies) : (g.beforeLoops H dt).DistinctEnemies := by
  obtain ⟨h1, h2⟩ := h
  have hb : (g.movePlayer.tickBrainrotTimer H dt).DistinctEnemies := by
    unfold Game.tickBrainrotTimer Game.spawnBrainrot Game.movePlayer
    dsimp only
    split
    · exact ⟨h1, fun e he => Nat.lt_succ_of_lt (h2 e he)⟩
    · exact ⟨h1, h2⟩
  obtain ⟨b1, b2⟩ := hb
  unfold Game.beforeLoops Game.tickEnemyTimer Game.spawnEnemy
  dsimp only
  split
  · constructor
    · rw [List.map_append, List.nodup_append]
      refine ⟨b1, List.nodup_singleton _, fun x hx hy => ?_⟩
      obtain ⟨e, he, rfl⟩ := List.mem_map.1 hx
      have hlt := b2 e he
      have heq : e.ref = (g.movePlayer.tickBrainrotTimer H dt).nextRef := by
        simpa [Enemy.new] using hy
      omega
    · intro e he
      rcases List.mem_append.1 he with he | he
      · exact Nat.lt_succ_of_lt (b2 e he)
      · rw [List.mem_singleton.1 he]
        exact Nat.lt_succ_self _
  · exact ⟨b1, b2⟩

theorem Game.update_distinctEnemies [FloorRing α] (H : Host α) (dt : α) (g : Game α)
    (h : g.DistinctEnemies) : (g.update H dt).DistinctEnemies := by
  obtain ⟨h1, h2⟩ := Game.beforeLoops_distinctEnemies H dt g h
  obtain ⟨u1, u2, -, u4⟩ := Game.update_enemies H dt g
  have hn : (((g.beforeLoops H dt).updateBrainrots H dt).enemies.map Enemy.ref).Nodup := by
    rw [u2]; exact h1
  have hl := Game.updateEnemies_enemies H dt _ hn
  have hsub : ((g.update H dt).enemies.map Enemy.ref).Sublist
      ((g.beforeLoops H dt).enemies.map Enemy.ref) := by
    rw [u1]
    simp only [Game.removeOffscreen]
    rw [hl, u2]
    refine ((List.filter_sublist _).map _).trans ?_
    rw [List.map_map]
    have : (Enemy.ref ∘ Enemy.update H ((g.beforeLoops H dt).updateBrainrots H dt).player dt) =
        (Enemy.ref : Enemy α → Nat) :=
      funext fun e => enemy_update_ref H _ dt e
    rw [this]
    exact (List.filter_sublist _).map _
  refine ⟨hsub.nodup h1, fun e he => ?_⟩
  rw [(Game.update_fields H dt g).2.2.2.2.2.2.2.2.2]
  obtain ⟨e0, he0, hre⟩ := List.mem_map.1 (hsub.subset (List.mem_map_of_mem Enemy.ref he))
  rw [← hre]
  exact h2 e0 he0

/-- In a running game the enemies of the array are pairwise different objects,
also when the loops of `update` start. -/
theorem Game.Reachable.distinctEnemies [FloorRing α] (H : Host α) (g : Game α)
    (h : Game.Reachable H g) :
    g.DistinctEnemies ∧ ∀ dt : α, ((g.beforeLoops H dt).enemies.map Enemy.ref).Nodup := by
  have hd : g.DistinctEnemies := by
    induction h with
    | new width height => exact ⟨List.nodup_nil, fun e he => absurd he (List.not_mem_nil _)⟩
    | update dt g _ ih => exact Game.update_distinctEnemies H dt g ih
    | setKeys keys g _ ih => exact ih
  exact ⟨hd, fun dt => (Game.beforeLoops_distinctEnemies H dt g hd).1⟩

/-! ### Enemies stay near the world -/

theorem enemySpawnPoint_near [FloorRing α] (width height sideDraw posDraw : α)
    (hw : 0 ≤ width) (hh : 0 ≤ height) (h0 : 0 ≤ posDraw) (h1 : posDraw < 1) (ref : Nat) :
    (Enemy.new ref (Game.enemySpawnPoint width height sideDraw posDraw).1
      (Game.enemySpawnPoint width height sideDraw posDraw).2).Near width height := by
  have hxw : 0 ≤ posDraw * width := mul_nonneg h0 hw
  have hxw1 : posDraw * width ≤ width := by nlinarith
  have hyh : 0 ≤ posDraw * height := mul_nonneg h0 hh
  have hyh1 : posDraw * height ≤ height := by nlinarith
  unfold Game.enemySpawnPoint Enemy.Near Enemy.new
  dsimp only
  split_ifs <;> dsimp only <;> refine ⟨rfl, ?_, ?_, ?_, ?_⟩ <;> linarith

theorem Game.movePlayer_clamped (g : Game α) (hr : g.player.radius = 15)
    (hw : 30 ≤ g.width) (hh : 30 ≤ g.height) :
    g.movePlayer.player.radius = 15 ∧
    15 ≤ g.movePlayer.player.x ∧ g.movePlayer.player.x ≤ g.width - 15 ∧
    15 ≤ g.movePlayer.player.y ∧ g.movePlayer.player.y ≤ g.height - 15 := by
  have key : ∀ p : Player α, p.radius = 15 →
      (p.update g.width g.height).radius = 15 ∧
      15 ≤ (p.update g.width g.height).x ∧ (p.update g.width g.height).x ≤ g.width - 15 ∧
      15 ≤ (p.update g.width g.height).y ∧ (p.update g.width g.height).y ≤ g.height - 15 := by
    intro p hp
    simp only [Player.update, hp]
    refine ⟨trivial, le_max_left _ _, max_le (by linarith) (min_le_left _ _), le_max_left _ _,
      max_le (by linarith) (min_le_left _ _)⟩
  unfold Game.movePlayer
  dsimp only
  apply key
  split_ifs <;> simp only [Player.moveUp, Player.moveDown, Player.moveLeft, Player.moveRight, hr]

/-- One coordinate of the enemy's step: from `a` towards `b` by the fraction
`2 / D` of the way, where `|b - a| ≤ D`; the result is between `a` and `b` or
within 2 of `b`. -/
theorem step_coordinate_bounds (a b D lo hi : ℝ) (hD : 0 < D) (hab : |b - a| ≤ D)
    (ha0 : lo ≤ a) (ha1 : a ≤ hi) (hb0 : lo + 2 ≤ b) (hb1 : b ≤ hi - 2) :
    lo ≤ a + (b - a) * (2 / D) ∧ a + (b - a) * (2 / D) ≤ hi := by
  obtain ⟨hl, hu⟩ := abs_le.1 hab
  have ht0 : 0 < 2 / D := div_pos (by norm_num) hD
  have htD : 2 / D * D = 2 := div_mul_cancel₀ 2 (ne_of_gt hD)
  by_cases ht : 2 / D ≤ 1
  · generalize 2 / D = t at *
    constructor <;> nlinarith
  · have ht1 : 1 < 2 / D := not_le.1 ht
    generalize 2 / D = t at *
    have hu1 : (b - a) * (t - 1) ≤ D * (t - 1) :=
      mul_le_mul_of_nonneg_right hu (by linarith)
    have hl1 : -D * (t - 1) ≤ (b - a) * (t - 1) :=
      mul_le_mul_of_nonneg_right hl (by linarith)
    constructor <;> nlinarith

theorem abs_le_dist_enemy_player (e : Enemy ℝ) (p : Player ℝ) :
    |p.x - e.x| ≤ dist e.circle.centre p.circle.centre ∧
    |p.y - e.y| ≤ dist e.circle.centre p.circle.centre := by
  rw [dist_enemy_player]
  constructor <;> apply Real.abs_le_sqrt <;> nlinarith [mul_self_nonneg (p.x - e.x),
    mul_self_nonneg (p.y - e.y)]

/-- An enemy near the world, stepping towards a player at least 15 inside it,
stays near the world. -/
theorem enemy_update_near (H : Host ℝ) (hs : H.sqrt = Real.sqrt) (width height dt : ℝ)
    (p : Player ℝ) (hx0 : 15 ≤ p.x) (hx1 : p.x ≤ width - 15) (hy0 : 15 ≤ p.y)
    (hy1 : p.y ≤ height - 15) (e : Enemy ℝ) (he : e.Near width height) :
    (e.update H p dt).Near width height := by
  obtain ⟨e1, e2, e3, e4, e5⟩ := he
  by_cases hpos : 0 < dist e.circle.centre p.circle.centre
  · obtain ⟨-, s2, s3, s4, -⟩ := enemy_update_step H hs p dt e hpos
    obtain ⟨ax, ay⟩ := abs_le_dist_enemy_player e p
    unfold Enemy.Near
    rw [s2, s3, s4, e1]
    obtain ⟨bx0, bx1⟩ := step_coordinate_bounds e.x p.x _ (-30) (width + 30) hpos ax e2 e3
      (by linarith) (by linarith)
    obtain ⟨by0, by1⟩ := step_coordinate_bounds e.y p.y _ (-30) (height + 30) hpos ay e4 e5
      (by linarith) (by linarith)
    exact ⟨rfl, bx0, bx1, by0, by1⟩
  · rw [enemy_update_still H hs p dt e hpos]
    exact ⟨e1, e2, e3, e4, e5⟩

theorem Game.tickEnemyTimer_near (H : Host ℝ) (hr : ∀ n, 0 ≤ H.random n ∧ H.random n < 1)
    (dt : ℝ) (g : Game ℝ) (hw : 0 ≤ g.width) (hh : 0 ≤ g.height)
    (h : ∀ e ∈ g.enemies, e.Near g.width g.height) :
    ∀ e ∈ (g.tickEnemyTimer H dt).enemies, e.Near g.width g.height := by
  unfold Game.tickEnemyTimer Game.spawnEnemy
  dsimp only
  split
  · intro e he
    rcases List.mem_append.1 he with he | he
    · exact h e he
    · rw [List.mem_singleton.1 he]
      exact enemySpawnPoint_near g.width g.height _ _ hw hh (hr _).1 (hr _).2 _
  · exact h

theorem Game.beforeLoops_near (H : Host ℝ) (hr : ∀ n, 0 ≤ H.random n ∧ H.random n < 1)
    (dt : ℝ) (g : Game ℝ) (hw : 30 ≤ g.width) (hh : 30 ≤ g.height) (h : g.EnemiesNear) :
    ∀ e ∈ (g.beforeLoops H dt).enemies, e.Near g.width g.height := by
  obtain ⟨b1, b2, -, b4, -⟩ := Game.tickBrainrotTimer_fields H dt g.movePlayer
  have hn := Game.tickEnemyTimer_near H hr dt (g.movePlayer.tickBrainrotTimer H dt)
    (by rw [b1]; exact le_trans (by norm_num) hw) (by rw [b2]; exact le_trans (by norm_num) hh)
    (by rw [b1, b2, b4]; exact h.2)
  rw [b1, b2] at hn
  exact hn

theorem Game.updateEnemies_near (H : Host ℝ) (hs : H.sqrt = Real.sqrt) (width height dt : ℝ)
    (g : Game ℝ) (hx0 : 15 ≤ g.player.x) (hx1 : g.player.x ≤ width - 15)
    (hy0 : 15 ≤ g.player.y) (hy1 : g.player.y ≤ height - 15)
    (h : ∀ e ∈ g.enemies, e.Near width height) :
    ∀ e ∈ (g.updateEnemies H dt).enemies, e.Near width height := by
  have hinv := foldl_invariant
    (fun t : Game ℝ => t.player = g.player ∧ ∀ e ∈ t.enemies, e.Near width height)
    (Game.visitEnemy H dt) g.enemies
    (fun t c hc ht => by
      obtain ⟨tp, tn⟩ := ht
      refine ⟨(Game.visitEnemy_player H dt t c).trans tp, ?_⟩
      have hcn : (c.update H t.player dt).Near width height := by
        rw [tp]
        exact enemy_update_near H hs width height dt g.player hx0 hx1 hy0 hy1 c (h c hc)
      have hm : ∀ e ∈ t.enemies.map
          (fun e => if e.ref = c.ref then c.update H t.player dt else e),
          e.Near width height := by
        intro e he
        obtain ⟨e0, he0, rfl⟩ := List.mem_map.1 he
        split
        · exact hcn
        · exact tn e0 he0
      unfold Game.visitEnemy Game.takeDamage
      dsimp only
      split
      · exact fun e he => hm e (List.mem_filter.1 he).1
      · exact hm)
    g ⟨rfl, h⟩
  exact hinv.2

/-- Before the off-screen filter runs, every enemy is near the world. -/
theorem Game.afterLoops_near (H : Host ℝ) (hs : H.sqrt = Real.sqrt)
    (hr : ∀ n, 0 ≤ H.random n ∧ H.random n < 1) (dt : ℝ) (g : Game ℝ)
    (hw : 30 ≤ g.width) (hh : 30 ≤ g.height) (h : g.EnemiesNear) :
    (g.afterLoops H dt).width = g.width ∧ (g.afterLoops H dt).height = g.height ∧
    ∀ e ∈ (g.afterLoops H dt).enemies, e.Near g.width g.height := by
  obtain ⟨-, u2, u3, -⟩ := Game.update_enemies H dt g
  obtain ⟨f1, f2, f3, -⟩ := Game.beforeLoops_fields H dt g
  obtain ⟨-, c2, c3, c4, c5⟩ := Game.movePlayer_clamped g h.1 hw hh
  obtain ⟨e1, e2, -⟩ := Game.updateEnemies_same H dt ((g.beforeLoops H dt).updateBrainrots H dt)
  obtain ⟨b1, b2, -⟩ := Game.updateBrainrots_same H dt (g.beforeLoops H dt)
  unfold Game.afterLoops
  refine ⟨by rw [e1, b1, f1], by rw [e2, b2, f2], ?_⟩
  apply Game.updateEnemies_near H hs g.width g.height dt
  · rw [u3, f3]; exact c2
  · rw [u3, f3]; exact c3
  · rw [u3, f3]; exact c4
  · rw [u3, f3]; exact c5
  · rw [u2]; exact Game.beforeLoops_near H hr dt g hw hh h

theorem Game.update_near (H : Host ℝ) (hs : H.sqrt = Real.sqrt)
    (hr : ∀ n, 0 ≤ H.random n ∧ H.random n < 1) (dt : ℝ) (g : Game ℝ)
    (hw : 30 ≤ g.width) (hh : 30 ≤ g.height) (h : g.EnemiesNear) :
    (g.update H dt).EnemiesNear := by
  obtain ⟨-, -, hn⟩ := Game.afterLoops_near H hs hr dt g hw hh h
  obtain ⟨u1, u2, u3, -⟩ := Game.update_fields H dt g
  obtain ⟨c1, -⟩ := Game.movePlayer_clamped g h.1 hw hh
  refine ⟨by rw [u3]; exact c1, fun e he => ?_⟩
  rw [u1, u2]
  rw [(Game.update_enemies H dt g).1] at he
  exact hn e (List.mem_filter.1 he).1

theorem Game.Reachable.near (H : Host ℝ) (hs : H.sqrt = Real.sqrt)
    (hr : ∀ n, 0 ≤ H.random n ∧ H.random n < 1) (g : Game ℝ) (h : Game.Reachable H g) :
    30 ≤ g.width → 30 ≤ g.height → g.EnemiesNear := by
  induction h with
  | new width height =>
    intro _ _
    exact ⟨rfl, fun e he => absurd he (List.not_mem_nil _)⟩
  | update dt g _ ih =>
    intro hw hh
    obtain ⟨u1, u2, -⟩ := Game.update_fields H dt g
    rw [u1] at hw
    rw [u2] at hh
    exact Game.update_near H hs hr dt g hw hh (ih hw hh)
  | setKeys keys g _ ih => exact ih

/-- C13: with the exact square root and random draws in `[0,1)`, in a world at
least 30 wide and 30 high and from every reachable state: when the off-screen
filter of `update` runs, every enemy satisfies `-50 < x < width + 50` and
`-50 < y < height + 50`, so the filter removes none.  The enemies after
`update` are those of the array at the start of the loops (the enemy spawned
in the call included) that do not overlap the player once updated, updated: an
enemy leaves the array only by overlapping the player. -/
theorem enemies_stay_on_screen (H : Host ℝ) (hs : H.sqrt = Real.sqrt)
    (hr : ∀ n, 0 ≤ H.random n ∧ H.random n < 1) (g : Game ℝ) (hg : Game.Reachable H g)
    (hw : 30 ≤ g.width) (hh : 30 ≤ g.height) (dt : ℝ) :
    (∀ e ∈ (g.afterLoops H dt).enemies,
      -50 < e.x ∧ e.x < g.width + 50 ∧ -50 < e.y ∧ e.y < g.height + 50) ∧
    (g.afterLoops H dt).removeOffscreen.enemies = (g.afterLoops H dt).enemies ∧
    (g.update H dt).enemies =
      ((g.beforeLoops H dt).enemies.filter
        fun e => !Game.overlapsEnemy H dt (g.beforeLoops H dt).player e).map
          (Enemy.update H (g.beforeLoops H dt).player dt) ∧
    (∀ e ∈ (g.update H dt).enemies,
      -50 < e.x ∧ e.x < g.width + 50 ∧ -50 < e.y ∧ e.y < g.height + 50) := by
  obtain ⟨a1, a2, hn⟩ :=
    Game.afterLoops_near H hs hr dt g hw hh (Game.Reachable.near H hs hr g hg hw hh)
  have hb : ∀ e ∈ (g.afterLoops H dt).enemies,
      -50 < e.x ∧ e.x < g.width + 50 ∧ -50 < e.y ∧ e.y < g.height + 50 := by
    intro e he
    obtain ⟨-, n2, n3, n4, n5⟩ := hn e he
    exact ⟨by linarith, by linarith, by linarith, by linarith⟩
  have hf : (g.afterLoops H dt).removeOffscreen.enemies = (g.afterLoops H dt).enemies := by
    simp only [Game.removeOffscreen]
    rw [List.filter_eq_self]
    intro e he
    obtain ⟨b1, b2, b3, b4⟩ := hb e he
    rw [a1, a2]
    simp [b1, b2, b3, b4]
  obtain ⟨u1, u2, u3, -⟩ := Game.update_enemies H dt g
  have hu : (g.update H dt).enemies = (g.afterLoops H dt).enemies := by
    rw [u1]; exact hf
  have hl := Game.updateEnemies_enemies H dt ((g.beforeLoops H dt).updateBrainrots H dt)
    (by rw [u2]; exact (Game.Reachable.distinctEnemies H g hg).2 dt)
  refine ⟨hb, hf, ?_, fun e he => hb e (hu ▸ he)⟩
  rw [hu, Game.afterLoops, hl, u2, u3]

/-- Witness for C13: the 800 x 600 game after a frame of 3001 ms, in which an
enemy was spawned at the left edge; all random draws are 0. -/
theorem enemies_stay_on_screen_witness :
    (((Game.new (800 : ℝ) 600).update ⟨Real.sqrt, Real.sin, Real.pi, fun _ => 0⟩ 3001).afterLoops
        ⟨Real.sqrt, Real.sin, Real.pi, fun _ => 0⟩ 16).removeOffscreen.enemies =
      (((Game.new (800 : ℝ) 600).update ⟨Real.sqrt, Real.sin, Real.pi, fun _ => 0⟩ 3001).afterLoops
        ⟨Real.sqrt, Real.sin, Real.pi, fun _ => 0⟩ 16).enemies :=
  (enemies_stay_on_screen ⟨Real.sqrt, Real.sin, Real.pi, fun _ => 0⟩ rfl
    (fun _ => ⟨le_refl _, zero_lt_one⟩)
    ((Game.new (800 : ℝ) 600).update ⟨Real.sqrt, Real.sin, Real.pi, fun _ => 0⟩ 3001)
    (Game.Reachable.update 3001 _ (Game.Reachable.new 800 600))
    (by rw [(Game.update_fields _ _ _).1]; norm_num [Game.new])
    (by rw [(Game.update_fields _ _ _).2.1]; norm_num [Game.new]) 16).2.1

end

end StealBrainrot
